import Mathlib

/-!
Cloud NGFW provider: identifier codec and lifecycle operations.

A shallow embedding of `internal/provider/{certificate,custom_url_category,rulestack,firewall}.go`.

* Go strings are Lean strings (sequences of characters); the separator is an ASCII character,
  so splitting on characters and on bytes agree.
* `schema.ResourceData` is a record with the identifier and one typed field per schema key.
* The remote client is a record of functions giving the answer of each remote call; every
  operation returns the new resource data, the remote calls it issued, in order, and how it
  ended (returned diagnostics, or a nil-pointer panic).
-/

namespace provider

/-! ## Go strings: `strings.Join` and `strings.Split` -/

namespace strings

/-- Go `strings.Join(elems, sep)`: the elements with `sep` between neighbours. -/
def Join : List String → String → String
  | [], _ => ""
  | [a], _ => a
  | a :: b :: rest, sep => a ++ sep ++ Join (b :: rest) sep

/-- Splitting of a character sequence at the leftmost, non-overlapping occurrences of a
non-empty separator. `skip` counts the characters of a matched separator still to be
dropped. -/
def splitChars (sep : List Char) : List Char → Nat → List (List Char)
  | [], _ => [[]]
  | _ :: rest, skip + 1 => splitChars sep rest skip
  | c :: rest, 0 =>
    if sep.isPrefixOf (c :: rest) then
      [] :: splitChars sep rest (sep.length - 1)
    else
      match splitChars sep rest 0 with
      | [] => [[c]]
      | t :: ts => (c :: t) :: ts

/-- Go `strings.Split(s, sep)`: all substrings of `s` separated by `sep`; with an empty
separator, one string per character. -/
def Split (s sep : String) : List String :=
  if sep.data = [] then s.data.map (fun c => String.mk [c])
  else (splitChars sep.data s.data 0).map String.mk

/-- Go `strings.Contains(s, substr)`. -/
def Contains (s substr : String) : Bool :=
  s.data.tails.any (fun t => substr.data.isPrefixOf t)

end strings

/-! ## Errors and diagnostics -/

/-- Go `error` values met in these files: the ones made by `fmt.Errorf`, and the ones the
remote client returns, which carry the not-found condition. -/
inductive GoError where
  | errorf (msg : String)
  | api (msg : String) (objectNotFound : Bool)
  deriving DecidableEq, Repr

/-- Modelled from the spec: `isObjectNotFound` is declared outside the files given; remote
calls "signal a distinguished object-not-found condition separate from generic transport
errors". -/
def isObjectNotFound : GoError → Bool
  | .api _ b => b
  | .errorf _ => false

/-- Modelled from the spec: the constant `IdSeparator` is declared outside the files given;
the spec's examples `stack1:cert1` and `111:us-east-1:fw1` fix it as the colon. -/
def IdSeparator : String := ":"

/-- The result of `diag.Diagnostics`-returning operations: `nil`, `diag.FromErr(err)`, or
`diag.Errorf("Error in parsing ID %q: %s", id, err)`. -/
inductive Diagnostics where
  | nil
  | FromErr (err : GoError)
  | Errorf (id : String) (err : GoError)
  deriving DecidableEq, Repr

/-! ## Identifier codec (`certificate.go`, `custom_url_category.go`) -/

/-- The Go `buildCertificateId`. -/
def buildCertificateId (a b : String) : String :=
  strings.Join [a, b] IdSeparator

/-- The Go `parseCertificateId`; the third component is the `error` (`none` is `nil`). -/
def parseCertificateId (v : String) : String × String × Option GoError :=
  let tok := strings.Split v IdSeparator
  match tok with
  | [t0, t1] => (t0, t1, none)
  | _ => ("", "", some (.errorf ("Expecting 2 tokens, got " ++ toString tok.length)))

/-- The Go `buildCustomUrlCategoryId`. -/
def buildCustomUrlCategoryId (a b : String) : String :=
  strings.Join [a, b] IdSeparator

/-- The Go `parseCustomUrlCategoryId`. -/
def parseCustomUrlCategoryId (v : String) : String × String × Option GoError :=
  let tok := strings.Split v IdSeparator
  match tok with
  | [t0, t1] => (t0, t1, none)
  | _ => ("", "", some (.errorf ("Expecting 2 tokens, got " ++ toString tok.length)))

/-! ## Runs of an operation -/

/-- How an operation ended: it returned diagnostics, or it dereferenced a nil pointer (or
asserted the type of a missing map entry) and panicked. -/
inductive Ending where
  | returned (diags : Diagnostics)
  | panicked
  deriving DecidableEq, Repr

/-- What an operation leaves behind: the resource data, the remote calls issued (in order)
and the way it ended. -/
structure Run (σ κ : Type) where
  d : σ
  calls : List κ
  ending : Ending
  deriving Repr

/-- The declarations of package `provider` that the data-source reads use and that live
outside the files given: the two phase names and the id decoration `configTypeId`. -/
structure Package where
  CandidateConfig : String
  RunningConfig : String
  configTypeId : String → String → String

/-! ## Certificates (`certificate.go`) -/

namespace certificate

/-- The remote record `certificate.Info`. -/
structure Info where
  Rulestack : String
  Name : String
  Description : String
  SignerArn : String
  SelfSigned : Bool
  AuditComment : String
  UpdateToken : String
  deriving DecidableEq, Repr

/-- The request `certificate.ReadInput`. -/
structure ReadInput where
  Rulestack : String
  Name : String
  Candidate : Bool := false
  Running : Bool := false
  deriving DecidableEq, Repr

/-- The part of the read response the provider looks at: two optional sub-records. -/
structure ReadResponse where
  Candidate : Option Info
  Running : Option Info
  deriving DecidableEq, Repr

/-- The answer `certificate.ReadOutput`. -/
structure ReadOutput where
  Response : ReadResponse
  deriving DecidableEq, Repr

/-- The remote calls of the certificate client. -/
inductive Call where
  | Create (o : Info)
  | Read (req : ReadInput)
  | Update (o : Info)
  | Delete (stack name : String)
  deriving DecidableEq, Repr

/-- The remote client: the answer to every call (`none` is a nil error). -/
structure Client where
  Create : Info → Option GoError
  Read : ReadInput → Except GoError ReadOutput
  Update : Info → Option GoError
  Delete : String → String → Option GoError

end certificate

/-- The `schema.ResourceData` of a certificate: the identifier and the keys of
`certificateSchema`. -/
structure CertificateData where
  Id : String
  config_type : String
  rulestack : String
  name : String
  description : String
  signer_arn : String
  self_signed : Bool
  audit_comment : String
  update_token : String
  deriving DecidableEq, Repr

/-- The Go `loadCertificate`. -/
def loadCertificate (d : CertificateData) : certificate.Info :=
  { Rulestack := d.rulestack
    Name := d.name
    Description := d.description
    SignerArn := d.signer_arn
    SelfSigned := d.self_signed
    AuditComment := d.audit_comment
    UpdateToken := "" }

/-- The Go `saveCertificate`. -/
def saveCertificate (d : CertificateData) (stack name : String) (o : certificate.Info) :
    CertificateData :=
  { d with
    rulestack := stack
    name := name
    description := o.Description
    signer_arn := o.SignerArn
    self_signed := o.SelfSigned
    audit_comment := o.AuditComment
    update_token := o.UpdateToken }

/-- The Go `readCertificateDataSource`. -/
def readCertificateDataSource (pkg : Package) (d : CertificateData) (svc : certificate.Client) :
    Run CertificateData certificate.Call :=
  let style := d.config_type
  let d := { d with config_type := style }
  let stack := d.rulestack
  let name := d.name
  let id := pkg.configTypeId style (buildCertificateId stack name)
  let req : certificate.ReadInput :=
    if style = pkg.CandidateConfig then { Rulestack := stack, Name := name, Candidate := true }
    else if style = pkg.RunningConfig then { Rulestack := stack, Name := name, Running := true }
    else { Rulestack := stack, Name := name }
  match svc.Read req with
  | .error err =>
    if isObjectNotFound err then ⟨{ d with Id := "" }, [.Read req], .returned .nil⟩
    else ⟨d, [.Read req], .returned (.FromErr err)⟩
  | .ok res =>
    let d := { d with Id := id }
    let info : Option certificate.Info :=
      if style = pkg.CandidateConfig then res.Response.Candidate
      else if style = pkg.RunningConfig then res.Response.Running
      else none
    match info with
    | none => ⟨d, [.Read req], .panicked⟩
    | some info => ⟨saveCertificate d stack name info, [.Read req], .returned .nil⟩

/-- The Go `readCertificate`. -/
def readCertificate (d : CertificateData) (svc : certificate.Client) :
    Run CertificateData certificate.Call :=
  match parseCertificateId d.Id with
  | (_, _, some err) => ⟨d, [], .returned (.Errorf d.Id err)⟩
  | (stack, name, none) =>
    let req : certificate.ReadInput := { Rulestack := stack, Name := name, Candidate := true }
    match svc.Read req with
    | .error err =>
      if isObjectNotFound err then ⟨{ d with Id := "" }, [.Read req], .returned .nil⟩
      else ⟨d, [.Read req], .returned (.FromErr err)⟩
    | .ok res =>
      match res.Response.Candidate with
      | none => ⟨d, [.Read req], .panicked⟩
      | some info => ⟨saveCertificate d stack name info, [.Read req], .returned .nil⟩

/-- The Go `createCertificate`. -/
def createCertificate (d : CertificateData) (svc : certificate.Client) :
    Run CertificateData certificate.Call :=
  let o := loadCertificate d
  match svc.Create o with
  | some err => ⟨d, [.Create o], .returned (.FromErr err)⟩
  | none =>
    let r := readCertificate { d with Id := buildCertificateId o.Rulestack o.Name } svc
    { r with calls := .Create o :: r.calls }

/-- The Go `updateCertificate`. -/
def updateCertificate (d : CertificateData) (svc : certificate.Client) :
    Run CertificateData certificate.Call :=
  let o := loadCertificate d
  match svc.Update o with
  | some err => ⟨d, [.Update o], .returned (.FromErr err)⟩
  | none =>
    let r := readCertificate d svc
    { r with calls := .Update o :: r.calls }

/-- The Go `deleteCertificate`. -/
def deleteCertificate (d : CertificateData) (svc : certificate.Client) :
    Run CertificateData certificate.Call :=
  match parseCertificateId d.Id with
  | (_, _, some err) => ⟨d, [], .returned (.Errorf d.Id err)⟩
  | (stack, name, none) =>
    match svc.Delete stack name with
    | some err =>
      if !isObjectNotFound err then ⟨d, [.Delete stack name], .returned (.FromErr err)⟩
      else ⟨{ d with Id := "" }, [.Delete stack name], .returned .nil⟩
    | none => ⟨{ d with Id := "" }, [.Delete stack name], .returned .nil⟩

/-! ## Custom URL categories (`custom_url_category.go`) -/

namespace url

/-- The remote record `url.Info`. -/
structure Info where
  Rulestack : String
  Name : String
  Description : String
  UrlList : List String
  Action : String
  AuditComment : String
  UpdateToken : String
  deriving DecidableEq, Repr

/-- The request `url.ReadInput`. -/
structure ReadInput where
  Rulestack : String
  Name : String
  Candidate : Bool := false
  Running : Bool := false
  deriving DecidableEq, Repr

/-- The part of the read response the provider looks at: two optional sub-records. -/
structure ReadResponse where
  Candidate : Option Info
  Running : Option Info
  deriving DecidableEq, Repr

/-- The answer `url.ReadOutput`. -/
structure ReadOutput where
  Response : ReadResponse
  deriving DecidableEq, Repr

/-- The remote calls of the URL-category client. -/
inductive Call where
  | Create (o : Info)
  | Read (req : ReadInput)
  | Update (o : Info)
  | Delete (stack name : String)
  deriving DecidableEq, Repr

/-- The remote client: the answer to every call (`none` is a nil error). -/
structure Client where
  Create : Info → Option GoError
  Read : ReadInput → Except GoError ReadOutput
  Update : Info → Option GoError
  Delete : String → String → Option GoError

end url

/-- The `schema.ResourceData` of a custom URL category: the identifier and the keys of
`customUrlCategorySchema`; the string set `url_list` is kept as the list of its distinct
members. -/
structure CustomUrlCategoryData where
  Id : String
  config_type : String
  rulestack : String
  name : String
  description : String
  url_list : List String
  action : String
  audit_comment : String
  update_token : String
  deriving DecidableEq, Repr

/-- Modelled from the spec: `setToSlice` is declared outside the files given (a "set/slice
conversion"); on the list view of a string set it returns the members. -/
def setToSlice (s : List String) : List String := s

/-- Modelled from the spec: `sliceToSet` is declared outside the files given (a "set/slice
conversion"); the set it builds holds the distinct members of the slice, so on the list
view of a string set repeated members are kept once. The order of the list view has no
meaning. -/
def sliceToSet (l : List String) : List String := l.dedup

/-- The Go `loadCustomUrlCategory`. -/
def loadCustomUrlCategory (d : CustomUrlCategoryData) : url.Info :=
  { Rulestack := d.rulestack
    Name := d.name
    Description := d.description
    UrlList := setToSlice d.url_list
    Action := d.action
    AuditComment := d.audit_comment
    UpdateToken := "" }

/-- The Go `saveCustomUrlCategory`. -/
def saveCustomUrlCategory (d : CustomUrlCategoryData) (stack name : String) (o : url.Info) :
    CustomUrlCategoryData :=
  { d with
    rulestack := stack
    name := name
    description := o.Description
    url_list := sliceToSet o.UrlList
    action := o.Action
    audit_comment := o.AuditComment
    update_token := o.UpdateToken }

/-- The Go `readCustomUrlCategoryDataSource`. -/
def readCustomUrlCategoryDataSource (pkg : Package) (d : CustomUrlCategoryData)
    (svc : url.Client) : Run CustomUrlCategoryData url.Call :=
  let style := d.config_type
  let d := { d with config_type := style }
  let stack := d.rulestack
  let name := d.name
  let id := pkg.configTypeId style (buildCustomUrlCategoryId stack name)
  let req : url.ReadInput :=
    if style = pkg.CandidateConfig then { Rulestack := stack, Name := name, Candidate := true }
    else if style = pkg.RunningConfig then { Rulestack := stack, Name := name, Running := true }
    else { Rulestack := stack, Name := name }
  match svc.Read req with
  | .error err =>
    if isObjectNotFound err then ⟨{ d with Id := "" }, [.Read req], .returned .nil⟩
    else ⟨d, [.Read req], .returned (.FromErr err)⟩
  | .ok res =>
    let d := { d with Id := id }
    let info : Option url.Info :=
      if style = pkg.CandidateConfig then res.Response.Candidate
      else if style = pkg.RunningConfig then res.Response.Running
      else none
    match info with
    | none => ⟨d, [.Read req], .panicked⟩
    | some info => ⟨saveCustomUrlCategory d stack name info, [.Read req], .returned .nil⟩

/-- The Go `readCustomUrlCategory`. -/
def readCustomUrlCategory (d : CustomUrlCategoryData) (svc : url.Client) :
    Run CustomUrlCategoryData url.Call :=
  match parseCustomUrlCategoryId d.Id with
  | (_, _, some err) => ⟨d, [], .returned (.Errorf d.Id err)⟩
  | (stack, name, none) =>
    let req : url.ReadInput := { Rulestack := stack, Name := name, Candidate := true }
    match svc.Read req with
    | .error err =>
      if isObjectNotFound err then ⟨{ d with Id := "" }, [.Read req], .returned .nil⟩
      else ⟨d, [.Read req], .returned (.FromErr err)⟩
    | .ok res =>
      match res.Response.Candidate with
      | none => ⟨d, [.Read req], .panicked⟩
      | some info => ⟨saveCustomUrlCategory d stack name info, [.Read req], .returned .nil⟩

/-- The Go `createCustomUrlCategory`. -/
def createCustomUrlCategory (d : CustomUrlCategoryData) (svc : url.Client) :
    Run CustomUrlCategoryData url.Call :=
  let o := loadCustomUrlCategory d
  match svc.Create o with
  | some err => ⟨d, [.Create o], .returned (.FromErr err)⟩
  | none =>
    let r := readCustomUrlCategory
      { d with Id := buildCustomUrlCategoryId o.Rulestack o.Name } svc
    { r with calls := .Create o :: r.calls }

/-- The Go `updateCustomUrlCategory`. -/
def updateCustomUrlCategory (d : CustomUrlCategoryData) (svc : url.Client) :
    Run CustomUrlCategoryData url.Call :=
  let o := loadCustomUrlCategory d
  match svc.Update o with
  | some err => ⟨d, [.Update o], .returned (.FromErr err)⟩
  | none =>
    let r := readCustomUrlCategory d svc
    { r with calls := .Update o :: r.calls }

/-- The Go `deleteCustomUrlCategory`. -/
def deleteCustomUrlCategory (d : CustomUrlCategoryData) (svc : url.Client) :
    Run CustomUrlCategoryData url.Call :=
  match parseCustomUrlCategoryId d.Id with
  | (_, _, some err) => ⟨d, [], .returned (.Errorf d.Id err)⟩
  | (stack, name, none) =>
    match svc.Delete stack name with
    | some err =>
      if !isObjectNotFound err then ⟨d, [.Delete stack name], .returned (.FromErr err)⟩
      else ⟨{ d with Id := "" }, [.Delete stack name], .returned .nil⟩
    | none => ⟨{ d with Id := "" }, [.Delete stack name], .returned .nil⟩

/-! ## Rule stacks (`rulestack.go`) -/

namespace stack

/-- The remote record `stack.ProfileConfig`. -/
structure ProfileConfig where
  AntiSpyware : String
  AntiVirus : String
  Vulnerability : String
  UrlFiltering : String
  FileBlocking : String
  OutboundTrustCertificate : String
  OutboundUntrustCertificate : String
  deriving DecidableEq, Repr

/-- The remote record `stack.Details`; a tag is a (key, value) pair. -/
structure Details where
  Description : String
  Scope : String
  AccountId : String
  AccountGroup : String
  MinimumAppIdVersion : String
  Tags : List (String × String)
  Profile : ProfileConfig
  deriving DecidableEq, Repr

/-- The remote record `stack.Info`. -/
structure Info where
  Name : String
  Entry : Details
  deriving DecidableEq, Repr

/-- The request `stack.ReadInput`. -/
structure ReadInput where
  Name : String
  Candidate : Bool := false
  Running : Bool := false
  deriving DecidableEq, Repr

/-- The part of the read response the provider looks at. -/
structure ReadResponse where
  Name : String
  State : String
  Candidate : Option Details
  Running : Option Details
  deriving DecidableEq, Repr

/-- The answer `stack.ReadOutput`. -/
structure ReadOutput where
  Response : ReadResponse
  deriving DecidableEq, Repr

/-- The remote calls of the rule-stack client. -/
inductive Call where
  | Create (o : Info)
  | Read (req : ReadInput)
  | Update (o : Info)
  | Delete (name : String)
  deriving DecidableEq, Repr

/-- The remote client: the answer to every call (`none` is a nil error). -/
structure Client where
  Create : Info → Option GoError
  Read : ReadInput → Except GoError ReadOutput
  Update : Info → Option GoError
  Delete : String → Option GoError

end stack

/-- The `schema.ResourceData` of a rule stack: the identifier and the keys of
`rulestackSchema`. The block `profile_config` has exactly one element (`MinItems` and
`MaxItems` are 1) and is kept as that element; the tags are kept as their entries. -/
structure RulestackData where
  Id : String
  config_type : String
  name : String
  description : String
  scope : String
  account_id : String
  account_group : String
  minimum_app_id_version : String
  tags : List (String × String)
  profile_config : stack.ProfileConfig
  state : String
  deriving DecidableEq, Repr

/-- Modelled from the spec: `configFolder` is declared outside the files given; it unwraps a
structured field "from its list-of-one encoding into a flat sub-structure". -/
def configFolder (v : stack.ProfileConfig) : stack.ProfileConfig := v

/-- Modelled from the spec: the one-argument tag loader that `loadRulestack` calls is
declared outside the files given; it turns the declared tags into "a list of (key, value)
records". -/
def loadTagsValue (v : List (String × String)) : List (String × String) := v

/-- Modelled from the spec: `dumpTags` is declared outside the files given; it turns the
remote tag list back into the declared tags. -/
def dumpTags (v : List (String × String)) : List (String × String) := v

/-- The Go `loadRulestack`. -/
def loadRulestack (d : RulestackData) : stack.Info :=
  let p := configFolder d.profile_config
  { Name := d.name
    Entry :=
      { Description := d.description
        Scope := d.scope
        AccountId := d.account_id
        AccountGroup := d.account_group
        MinimumAppIdVersion := d.minimum_app_id_version
        Tags := loadTagsValue d.tags
        Profile :=
          { AntiSpyware := p.AntiSpyware
            AntiVirus := p.AntiVirus
            Vulnerability := p.Vulnerability
            UrlFiltering := p.UrlFiltering
            FileBlocking := p.FileBlocking
            OutboundTrustCertificate := p.OutboundTrustCertificate
            OutboundUntrustCertificate := p.OutboundUntrustCertificate } } }

/-- The Go `saveRulestack`. -/
def saveRulestack (d : RulestackData) (name state : String) (o : stack.Details) :
    RulestackData :=
  let pc : stack.ProfileConfig :=
    { AntiSpyware := o.Profile.AntiSpyware
      AntiVirus := o.Profile.AntiVirus
      Vulnerability := o.Profile.Vulnerability
      UrlFiltering := o.Profile.UrlFiltering
      FileBlocking := o.Profile.FileBlocking
      OutboundTrustCertificate := o.Profile.OutboundTrustCertificate
      OutboundUntrustCertificate := o.Profile.OutboundUntrustCertificate }
  { d with
    name := name
    description := o.Description
    scope := o.Scope
    account_id := o.AccountId
    account_group := o.AccountGroup
    minimum_app_id_version := o.MinimumAppIdVersion
    profile_config := pc
    tags := dumpTags o.Tags
    state := state }

/-- The Go `readRulestackDataSource`. -/
def readRulestackDataSource (pkg : Package) (d : RulestackData) (svc : stack.Client) :
    Run RulestackData stack.Call :=
  let style := d.config_type
  let d := { d with config_type := style }
  let name := d.name
  let id := pkg.configTypeId style name
  let req : stack.ReadInput :=
    if style = pkg.CandidateConfig then { Name := name, Candidate := true }
    else if style = pkg.RunningConfig then { Name := name, Running := true }
    else { Name := name }
  match svc.Read req with
  | .error err =>
    if isObjectNotFound err then ⟨{ d with Id := "" }, [.Read req], .returned .nil⟩
    else ⟨d, [.Read req], .returned (.FromErr err)⟩
  | .ok res =>
    let d := { d with Id := id }
    let info : Option stack.Details :=
      if style = pkg.CandidateConfig then res.Response.Candidate
      else if style = pkg.RunningConfig then res.Response.Running
      else none
    match info with
    | none => ⟨d, [.Read req], .panicked⟩
    | some info => ⟨saveRulestack d name res.Response.State info, [.Read req], .returned .nil⟩

/-- The Go `readRulestack`. -/
def readRulestack (d : RulestackData) (svc : stack.Client) : Run RulestackData stack.Call :=
  let name := d.Id
  let req : stack.ReadInput := { Name := name, Candidate := true }
  match svc.Read req with
  | .error err =>
    if isObjectNotFound err then ⟨{ d with Id := "" }, [.Read req], .returned .nil⟩
    else ⟨d, [.Read req], .returned (.FromErr err)⟩
  | .ok res =>
    match res.Response.Candidate with
    | none => ⟨d, [.Read req], .panicked⟩
    | some info =>
      ⟨saveRulestack d res.Response.Name res.Response.State info, [.Read req], .returned .nil⟩

/-- The Go `createRulestack`. -/
def createRulestack (d : RulestackData) (svc : stack.Client) : Run RulestackData stack.Call :=
  let o := loadRulestack d
  match svc.Create o with
  | some err => ⟨d, [.Create o], .returned (.FromErr err)⟩
  | none =>
    let r := readRulestack { d with Id := o.Name } svc
    { r with calls := .Create o :: r.calls }

/-- The Go `updateRulestack`. -/
def updateRulestack (d : RulestackData) (svc : stack.Client) : Run RulestackData stack.Call :=
  let o := loadRulestack d
  match svc.Update o with
  | some err => ⟨d, [.Update o], .returned (.FromErr err)⟩
  | none =>
    let r := readRulestack { d with Id := o.Name } svc
    { r with calls := .Update o :: r.calls }

/-- The Go `deleteRulestack`. -/
def deleteRulestack (d : RulestackData) (svc : stack.Client) : Run RulestackData stack.Call :=
  let name := d.Id
  match svc.Delete name with
  | some err =>
    if !isObjectNotFound err then ⟨d, [.Delete name], .returned (.FromErr err)⟩
    else ⟨{ d with Id := "" }, [.Delete name], .returned .nil⟩
  | none => ⟨{ d with Id := "" }, [.Delete name], .returned .nil⟩

/-! ## Firewalls (`firewall.go`) -/

/-- A Go slice value: `nil`, or a sequence of elements (possibly of length zero). -/
inductive Slice (α : Type) where
  | nil
  | mk (elems : List α)
  deriving DecidableEq, Repr

/-- The elements a `range` over the slice visits. -/
def Slice.elems {α : Type} : Slice α → List α
  | .nil => []
  | .mk l => l

/-- A Go `map[string]interface{}` value whose entries hold values of type `β`: `nil`, or
the entries, with pairwise distinct keys; the order of the entries stands for the order in
which this run iterates over the map. -/
inductive GoMap (β : Type) where
  | nil
  | mk (entries : List (String × β))
  deriving DecidableEq, Repr

/-- The assignment `m[k] = v` on the entries of a map: an entry with key `k` is replaced, a
new key is added. -/
def setEntry {β : Type} : List (String × β) → String → β → List (String × β)
  | [], k, v => [(k, v)]
  | (k0, v0) :: rest, k, v => if k0 = k then (k, v) :: rest else (k0, v0) :: setEntry rest k v

/-- The lookup `m[k]`: `none` is the nil interface value a missing key (or a nil map)
gives. -/
def GoMap.lookup {β : Type} : GoMap β → String → Option β
  | .nil, _ => none
  | .mk es, k => (es.find? (fun e => e.1 = k)).map (fun e => e.2)

namespace firewall

/-- The remote record `firewall.SubnetMapping`. -/
structure SubnetMapping where
  SubnetId : String
  AvailabilityZone : String := ""
  deriving DecidableEq, Repr

/-- The remote record `firewall.TagDetails`. -/
structure TagDetails where
  Key : String
  Value : String
  deriving DecidableEq, Repr

/-- One attachment of `firewall.FirewallStatus`. -/
structure Attachment where
  EndpointId : String
  Status : String
  RejectedReason : String
  SubnetId : String
  deriving DecidableEq, Repr

set_option linter.dupNamespace false in
/-- The remote record `firewall.FirewallStatus`. -/
structure FirewallStatus where
  FirewallStatus : String
  FailureReason : String
  RuleStackStatus : String
  Attachments : Slice Attachment
  deriving DecidableEq, Repr

/-- The remote record `firewall.Info`. -/
structure Info where
  Name : String
  VpcId : String
  AccountId : String
  Description : String
  EndpointMode : String
  EndpointServiceName : String
  SubnetMappings : Slice SubnetMapping
  AssociateSubnetMappings : Slice SubnetMapping
  DisassociateSubnetMappings : Slice SubnetMapping
  AppIdVersion : String
  AutomaticUpgradeAppIdVersion : Bool
  RuleStackName : String
  GlobalRuleStackName : String
  Tags : Slice TagDetails
  UpdateToken : String
  deriving DecidableEq, Repr

/-- The request `firewall.ReadInput`. -/
structure ReadInput where
  Name : String
  AccountId : String
  deriving DecidableEq, Repr

/-- The record `firewall.ReadResponse`; `Status` is a pointer. -/
structure ReadResponse where
  Firewall : Info
  Status : Option FirewallStatus
  deriving DecidableEq, Repr

/-- The answer `firewall.ReadOutput`; `Response` is a pointer. -/
structure ReadOutput where
  Response : Option ReadResponse
  deriving DecidableEq, Repr

/-- The remote calls of the firewall client. -/
inductive Call where
  | Create (o : Info)
  | Read (req : ReadInput)
  | UpdateDescription (o : Info)
  | UpdateNGFirewallContentVersion (o : Info)
  | UpdateSubnetMappings (o : Info)
  | Delete (fw : ReadInput)
  deriving DecidableEq, Repr

/-- The client `meta.(*awsngfw.Client)`: its region and the answer to every call (`none`
is a nil error). -/
structure Client where
  Region : String
  Create : Info → Except GoError ReadOutput
  Read : ReadInput → Except GoError ReadOutput
  UpdateDescription : Info → Option GoError
  UpdateNGFirewallContentVersion : Info → Option GoError
  UpdateSubnetMappings : Info → Option GoError
  Delete : ReadInput → Option GoError

end firewall

/-- One saved attachment of the `status` block. -/
structure AttachmentBlock where
  endpoint_id : String
  status : String
  rejected_reason : String
  subnet_id : String
  deriving DecidableEq, Repr

/-- The single element of the `status` block. -/
structure StatusBlock where
  firewall_status : String
  failure_reason : String
  rulestack_status : String
  attachments : List AttachmentBlock
  deriving DecidableEq, Repr

/-- The `schema.ResourceData` of a firewall: the identifier and the keys of
`firewallSchema`. An element of `subnet_mapping` is a map from the keys of the nested
schema to strings. The record has every key of the full schema; the resource's schema lacks
`status` and `endpoint_service_name`, and there these two fields are never written. -/
structure FirewallData where
  Id : String
  name : String
  vpc_id : String
  account_id : String
  description : String
  endpoint_mode : String
  endpoint_service_name : String
  subnet_mapping : Slice (GoMap String)
  app_id_version : String
  automatic_upgrade_app_id_version : Bool
  rulestack : String
  global_rulestack : String
  tags : GoMap String
  update_token : String
  status : Slice StatusBlock
  deriving DecidableEq, Repr

/-- Modelled from the spec: `firewallId` is declared outside the files given; it is the
three-component id "account:region:name", its parts joined by the separator. -/
def firewallId (account region name : String) : String :=
  strings.Join [account, region, name] IdSeparator

/-- The Go `saveSubnetMappings`. -/
def saveSubnetMappings (subnetMappings : Slice firewall.SubnetMapping) : Slice (GoMap String) :=
  match subnetMappings with
  | .mk l =>
    .mk (l.map (fun sm =>
      GoMap.mk (setEntry (setEntry [] "subnet_id" sm.SubnetId) "az" sm.AvailabilityZone)))
  | .nil => .mk []

/-- The Go `loadSubnetMappings`; `none` is the panic of the type assertion `.(string)` on a
missing key. -/
def loadSubnetMappings (subnetMappings : Slice (GoMap String)) :
    Option (Slice firewall.SubnetMapping) :=
  match subnetMappings with
  | .mk l =>
    (l.mapM (fun (_smi : GoMap String) =>
      match _smi.lookup "subnet_id", _smi.lookup "az" with
      | some sid, some az =>
        some ({ SubnetId := sid, AvailabilityZone := az } : firewall.SubnetMapping)
      | _, _ => none)).map Slice.mk
  | .nil => some (.mk [])

/-- The Go `saveTags`. -/
def saveTags (tags : Slice firewall.TagDetails) : GoMap String :=
  match tags with
  | .mk l => .mk (l.foldl (fun t v => setEntry t v.Key v.Value) [])
  | .nil => .mk []

/-- The Go `loadTags`. -/
def loadTags (tags : GoMap String) : Slice firewall.TagDetails :=
  match tags with
  | .mk es => .mk (es.map (fun e => { Key := e.1, Value := e.2 }))
  | .nil => .mk []

/-- The Go `saveStatus`. -/
def saveStatus (status : firewall.FirewallStatus) : Slice StatusBlock :=
  let attachments : List AttachmentBlock :=
    status.Attachments.elems.map (fun att =>
      { endpoint_id := att.EndpointId
        status := att.Status
        rejected_reason := att.RejectedReason
        subnet_id := att.SubnetId })
  .mk [{ firewall_status := status.FirewallStatus
         failure_reason := status.FailureReason
         rulestack_status := status.RuleStackStatus
         attachments := attachments }]

/-- The Go `loadFirewall`; `none` is a panic inside `loadSubnetMappings`. -/
def loadFirewall (d : FirewallData) : Option firewall.Info :=
  (loadSubnetMappings d.subnet_mapping).map (fun sms =>
    { Name := d.name
      VpcId := d.vpc_id
      AccountId := d.account_id
      Description := d.description
      EndpointMode := d.endpoint_mode
      EndpointServiceName := ""
      SubnetMappings := sms
      AssociateSubnetMappings := .nil
      DisassociateSubnetMappings := .nil
      AppIdVersion := d.app_id_version
      AutomaticUpgradeAppIdVersion := d.automatic_upgrade_app_id_version
      RuleStackName := d.rulestack
      GlobalRuleStackName := d.global_rulestack
      Tags := loadTags d.tags
      UpdateToken := "" })

/-- The Go `saveFirewall`. `isResource` says which schema `d` has: the resource is built
with `firewallSchema(true, []string{"status", "endpoint_service_name"})`, which deletes
these two keys, so on the resource a `d.Set` of either fails and stores nothing; the data
source keeps every key. -/
def saveFirewall (isResource : Bool) (d : FirewallData) (name : String)
    (o : firewall.ReadResponse) : FirewallData :=
  let d : FirewallData :=
    { d with
      name := name
      vpc_id := o.Firewall.VpcId
      account_id := o.Firewall.AccountId
      description := o.Firewall.Description
      endpoint_mode := o.Firewall.EndpointMode
      endpoint_service_name :=
        if isResource then d.endpoint_service_name else o.Firewall.EndpointServiceName
      subnet_mapping := saveSubnetMappings o.Firewall.SubnetMappings
      app_id_version := o.Firewall.AppIdVersion
      automatic_upgrade_app_id_version := o.Firewall.AutomaticUpgradeAppIdVersion
      rulestack := o.Firewall.RuleStackName
      global_rulestack := o.Firewall.GlobalRuleStackName
      tags := saveTags o.Firewall.Tags
      update_token := o.Firewall.UpdateToken }
  match o.Status with
  | some st => if isResource then d else { d with status := saveStatus st }
  | none => d

/-- The Go `readFirewallDataSource`. -/
def readFirewallDataSource (d : FirewallData) (svc : firewall.Client) :
    Run FirewallData firewall.Call :=
  let region := svc.Region
  let name := d.name
  let account_id := d.account_id
  let req : firewall.ReadInput := { Name := name, AccountId := account_id }
  match svc.Read req with
  | .error err =>
    if isObjectNotFound err then ⟨{ d with Id := "" }, [.Read req], .returned .nil⟩
    else ⟨d, [.Read req], .returned (.FromErr err)⟩
  | .ok res =>
    match res.Response with
    | none => ⟨d, [.Read req], .panicked⟩
    | some resp =>
      let account_id := resp.Firewall.AccountId
      let id := firewallId account_id region name
      ⟨saveFirewall false { d with Id := id } name resp, [.Read req], .returned .nil⟩

/-- The Go `readFirewall`. -/
def readFirewall (d : FirewallData) (svc : firewall.Client) : Run FirewallData firewall.Call :=
  let name := d.name
  let account_id := d.account_id
  let req : firewall.ReadInput := { Name := name, AccountId := account_id }
  match svc.Read req with
  | .error err =>
    if isObjectNotFound err then ⟨{ d with Id := "" }, [.Read req], .returned .nil⟩
    else ⟨d, [.Read req], .returned (.FromErr err)⟩
  | .ok res =>
    match res.Response with
    | none => ⟨d, [.Read req], .panicked⟩
    | some resp => ⟨saveFirewall true d name resp, [.Read req], .returned .nil⟩

/-- The Go `createFirewall`. -/
def createFirewall (d : FirewallData) (svc : firewall.Client) : Run FirewallData firewall.Call :=
  let region := svc.Region
  match loadFirewall d with
  | none => ⟨d, [], .panicked⟩
  | some o =>
    match svc.Create o with
    | .error err => ⟨d, [.Create o], .returned (.FromErr err)⟩
    | .ok res =>
      match res.Response with
      | none => ⟨d, [.Create o], .panicked⟩
      | some resp =>
        let fw := resp.Firewall
        let id := firewallId fw.AccountId region fw.Name
        let r := readFirewall { d with Id := id } svc
        { r with calls := .Create o :: r.calls }

/-- The Go `deleteFirewall`. -/
def deleteFirewall (d : FirewallData) (svc : firewall.Client) : Run FirewallData firewall.Call :=
  let name := d.name
  let account_id := if d.account_id ≠ "" then d.account_id else ""
  let fw : firewall.ReadInput := { Name := name, AccountId := account_id }
  match svc.Delete fw with
  | some err =>
    if !isObjectNotFound err then ⟨d, [.Delete fw], .returned (.FromErr err)⟩
    else ⟨{ d with Id := "" }, [.Delete fw], .returned .nil⟩
  | none => ⟨{ d with Id := "" }, [.Delete fw], .returned .nil⟩

/-! ## Firewall update (`updateFirewall`) -/

/-- The entries of a map as a mapping from keys to values: a nil map has none. -/
def GoMap.entries {β : Type} : GoMap β → List (String × β)
  | .nil => []
  | .mk es => es

/-- The keys of a map. -/
def GoMap.keys {β : Type} (m : GoMap β) : List String :=
  m.entries.map (fun e => e.1)

/-- Go `reflect.DeepEqual` on two maps with string values: both nil, or both non-nil with
the same number of entries and the same value under every key. -/
def GoMap.deepEqual : GoMap String → GoMap String → Bool
  | .nil, .nil => true
  | .mk a, .mk b => a.length == b.length && a.all (fun e => (GoMap.mk b).lookup e.1 == some e.2)
  | _, _ => false

/-- Go `reflect.DeepEqual` on two slices of maps: both nil, or both non-nil with the same
length and deeply equal elements at every index. -/
def deepEqualMappings : Slice (GoMap String) → Slice (GoMap String) → Bool
  | .nil, .nil => true
  | .mk a, .mk b => a.length == b.length && (a.zip b).all (fun p => p.1.deepEqual p.2)
  | _, _ => false

/-- The values `d.GetChange` returns as the old side, for the keys `updateFirewall` asks
about: what the framework knew before this update. -/
structure FirewallPrior where
  description : String
  app_id_version : String
  subnet_mapping : Slice (GoMap String)
  deriving DecidableEq, Repr

/-- Modelled from the spec: `sliceDiff` is declared outside the files given; `sliceDiff(a, b)`
is the set difference the delta computer is built on: the elements of `a` that are "absent
from" `b`, in the order of `a`. -/
def sliceDiff (a b : List String) : List String :=
  a.filter (fun x => decide (x ∉ b))

/-- The loop of `updateFirewall` that collects `mapping["subnet_id"].(string)` over the
elements of a `subnet_mapping` value; `none` is the panic of the type assertion on a
missing key. -/
def subnetIds (mapping : Slice (GoMap String)) : Option (List String) :=
  mapping.elems.mapM (fun (m : GoMap String) => m.lookup "subnet_id")

/-- The Go `updateFirewall`. `d.HasChange(key)` says that the old and the new value of the
key are not deeply equal; `d.GetChange("subnet_mapping")` is the prior and the declared
value. -/
def updateFirewall (prior : FirewallPrior) (d : FirewallData) (svc : firewall.Client) :
    Run FirewallData firewall.Call :=
  match loadFirewall d with
  | none => ⟨d, [], .panicked⟩
  | some o =>
    let c1 : List firewall.Call :=
      if prior.description ≠ d.description then [.UpdateDescription o] else []
    match (if prior.description ≠ d.description then svc.UpdateDescription o else none) with
    | some err => ⟨d, c1, .returned (.FromErr err)⟩
    | none =>
      let c2 : List firewall.Call :=
        if prior.app_id_version ≠ d.app_id_version ∧ d.app_id_version ≠ "" then
          [.UpdateNGFirewallContentVersion o]
        else []
      match (if prior.app_id_version ≠ d.app_id_version ∧ d.app_id_version ≠ "" then
          svc.UpdateNGFirewallContentVersion o else none) with
      | some err => ⟨d, c1 ++ c2, .returned (.FromErr err)⟩
      | none =>
        if deepEqualMappings prior.subnet_mapping d.subnet_mapping = false then
          match subnetIds prior.subnet_mapping, subnetIds d.subnet_mapping with
          | some o_subnets, some n_subnets =>
            let assoc : List firewall.SubnetMapping :=
              (sliceDiff n_subnets o_subnets).map (fun i => { SubnetId := i })
            let dassoc : List firewall.SubnetMapping :=
              (sliceDiff o_subnets n_subnets).map (fun i => { SubnetId := i })
            let o2 : firewall.Info :=
              { o with
                AssociateSubnetMappings := .mk assoc
                DisassociateSubnetMappings := .mk dassoc }
            match svc.UpdateSubnetMappings o2 with
            | some err => ⟨d, c1 ++ c2 ++ [.UpdateSubnetMappings o2], .returned (.FromErr err)⟩
            | none =>
              let r := readFirewall d svc
              { r with calls := c1 ++ c2 ++ [.UpdateSubnetMappings o2] ++ r.calls }
          | _, _ => ⟨d, c1 ++ c2, .panicked⟩
        else
          let r := readFirewall d svc
          { r with calls := c1 ++ c2 ++ r.calls }

/-- The (associate, disassociate) payloads of the `UpdateSubnetMappings` calls among the
remote calls of a run. -/
def subnetPayloads :
    List firewall.Call → List (Slice firewall.SubnetMapping × Slice firewall.SubnetMapping)
  | [] => []
  | .UpdateSubnetMappings o :: rest =>
    (o.AssociateSubnetMappings, o.DisassociateSubnetMappings) :: subnetPayloads rest
  | _ :: rest => subnetPayloads rest

/-- The request `updateFirewall` sends to `UpdateSubnetMappings`: the loaded record with
the two payloads filled in from the old and the new subnet ids. -/
def subnetMappingsRequest (o : firewall.Info) (o_subnets n_subnets : List String) :
    firewall.Info :=
  { o with
    AssociateSubnetMappings :=
      .mk ((sliceDiff n_subnets o_subnets).map (fun i => { SubnetId := i }))
    DisassociateSubnetMappings :=
      .mk ((sliceDiff o_subnets n_subnets).map (fun i => { SubnetId := i })) }

/-- The update sequence in the spec's words: the update calls that apply, in the fixed
order description, content version, subnet mappings, each with the answer of the remote
side. -/
def applicableUpdates (prior : FirewallPrior) (d : FirewallData) (svc : firewall.Client)
    (o : firewall.Info) (o_subnets n_subnets : List String) :
    List (firewall.Call × Option GoError) :=
  (if prior.description ≠ d.description then
    [(firewall.Call.UpdateDescription o, svc.UpdateDescription o)] else []) ++
  (if prior.app_id_version ≠ d.app_id_version ∧ d.app_id_version ≠ "" then
    [(firewall.Call.UpdateNGFirewallContentVersion o, svc.UpdateNGFirewallContentVersion o)]
   else []) ++
  (if deepEqualMappings prior.subnet_mapping d.subnet_mapping = false then
    [(firewall.Call.UpdateSubnetMappings (subnetMappingsRequest o o_subnets n_subnets),
      svc.UpdateSubnetMappings (subnetMappingsRequest o o_subnets n_subnets))]
   else [])

/-- The update sequence in the spec's words: issue the calls in order and stop at the first
one that fails; the result is the calls issued and the error of the failing one, if any. -/
def issueInOrder : List (firewall.Call × Option GoError) → List firewall.Call × Option GoError
  | [] => ([], none)
  | (c, none) :: rest => (c :: (issueInOrder rest).1, (issueInOrder rest).2)
  | (c, some err) :: _ => ([c], some err)

/-- The update in the spec's words: issue the applicable calls in order; on the first
failure return its error at once, with the declared state as it was; after all of them
succeeded perform the read. -/
def updateThenRead (d : FirewallData) (svc : firewall.Client)
    (updates : List (firewall.Call × Option GoError)) : Run FirewallData firewall.Call :=
  match issueInOrder updates with
  | (cs, some err) => ⟨d, cs, .returned (.FromErr err)⟩
  | (cs, none) =>
    { readFirewall d svc with calls := cs ++ (readFirewall d svc).calls }

/-! ## Sample inputs -/

namespace sample

/-- A rule stack declared under the name `stack1`. -/
def rulestackData : RulestackData :=
  { Id := ""
    config_type := ""
    name := "stack1"
    description := "demo"
    scope := "Local"
    account_id := ""
    account_group := ""
    minimum_app_id_version := ""
    tags := []
    profile_config :=
      { AntiSpyware := "BestPractice"
        AntiVirus := "BestPractice"
        Vulnerability := "BestPractice"
        UrlFiltering := "None"
        FileBlocking := "BestPractice"
        OutboundTrustCertificate := ""
        OutboundUntrustCertificate := "" }
    state := "" }

/-- A rule-stack client on which every call succeeds; a read answers with a candidate
sub-record only. -/
def stackClient : stack.Client :=
  { Create := fun _ => none
    Read := fun req =>
      .ok { Response :=
              { Name := req.Name
                State := "Uncommitted"
                Candidate := some (loadRulestack rulestackData).Entry
                Running := none } }
    Update := fun _ => none
    Delete := fun _ => none }

/-- A certificate tracked under the id `s1:missing`. -/
def certificateData : CertificateData :=
  { Id := "s1:missing"
    config_type := ""
    rulestack := "s1"
    name := "missing"
    description := "old"
    signer_arn := ""
    self_signed := true
    audit_comment := ""
    update_token := "t0" }

/-- A certificate whose id has a single token. -/
def certificateDataBadId : CertificateData :=
  { certificateData with Id := "s1-missing" }

/-- A certificate client whose object is gone: every call reports not-found. -/
def certificateClientNotFound : certificate.Client :=
  { Create := fun _ => some (.api "not found" true)
    Read := fun _ => .error (.api "not found" true)
    Update := fun _ => some (.api "not found" true)
    Delete := fun _ => fun _ => some (.api "not found" true) }

/-- A custom URL category tracked under the id `s1:missing`. -/
def customUrlCategoryData : CustomUrlCategoryData :=
  { Id := "s1:missing"
    config_type := ""
    rulestack := "s1"
    name := "missing"
    description := "old"
    url_list := ["example.com"]
    action := "none"
    audit_comment := ""
    update_token := "t0" }

/-- A custom URL category whose id has three tokens. -/
def customUrlCategoryDataBadId : CustomUrlCategoryData :=
  { customUrlCategoryData with Id := "a:b:c" }

/-- A URL-category client whose object is gone: every call reports not-found. -/
def urlClientNotFound : url.Client :=
  { Create := fun _ => some (.api "not found" true)
    Read := fun _ => .error (.api "not found" true)
    Update := fun _ => some (.api "not found" true)
    Delete := fun _ => fun _ => some (.api "not found" true) }

/-- A rule-stack client whose object is gone: every call reports not-found. -/
def stackClientNotFound : stack.Client :=
  { Create := fun _ => some (.api "not found" true)
    Read := fun _ => .error (.api "not found" true)
    Update := fun _ => some (.api "not found" true)
    Delete := fun _ => some (.api "not found" true) }

/-- A firewall declared as `fw1` with no account id and one subnet mapping. -/
def firewallData : FirewallData :=
  { Id := ""
    name := "fw1"
    vpc_id := "vpc-1"
    account_id := ""
    description := ""
    endpoint_mode := "ServiceManaged"
    endpoint_service_name := ""
    subnet_mapping := .mk [.mk [("subnet_id", "subnet-a"), ("az", "")]]
    app_id_version := ""
    automatic_upgrade_app_id_version := true
    rulestack := "stack1"
    global_rulestack := ""
    tags := .mk []
    update_token := ""
    status := .mk [] }

/-- The record the server keeps for `fw1`: it resolved the account id to `111`. -/
def firewallRecord : firewall.Info :=
  { Name := "fw1"
    VpcId := "vpc-1"
    AccountId := "111"
    Description := ""
    EndpointMode := "ServiceManaged"
    EndpointServiceName := "svc-1"
    SubnetMappings := .mk [{ SubnetId := "subnet-a" }]
    AssociateSubnetMappings := .nil
    DisassociateSubnetMappings := .nil
    AppIdVersion := ""
    AutomaticUpgradeAppIdVersion := true
    RuleStackName := "stack1"
    GlobalRuleStackName := ""
    Tags := .nil
    UpdateToken := "t1" }

/-- A firewall client of region `us-east-1` on which every call succeeds and answers with
`firewallRecord`. -/
def firewallClient : firewall.Client :=
  { Region := "us-east-1"
    Create := fun _ => .ok { Response := some { Firewall := firewallRecord, Status := none } }
    Read := fun _ => .ok { Response := some { Firewall := firewallRecord, Status := none } }
    UpdateDescription := fun _ => none
    UpdateNGFirewallContentVersion := fun _ => none
    UpdateSubnetMappings := fun _ => none
    Delete := fun _ => none }

/-- A firewall client whose object is gone: every call reports not-found. -/
def firewallClientNotFound : firewall.Client :=
  { Region := "us-east-1"
    Create := fun _ => .error (.api "not found" true)
    Read := fun _ => .error (.api "not found" true)
    UpdateDescription := fun _ => some (.api "not found" true)
    UpdateNGFirewallContentVersion := fun _ => some (.api "not found" true)
    UpdateSubnetMappings := fun _ => some (.api "not found" true)
    Delete := fun _ => some (.api "not found" true) }

/-- Phase names and an id decoration for the data-source reads. -/
def package : Package :=
  { CandidateConfig := "candidate"
    RunningConfig := "running"
    configTypeId := fun style id => style ++ IdSeparator ++ id }

/-- A certificate record as the server returns it. -/
def certificateRecord : certificate.Info :=
  { Rulestack := "s1"
    Name := "c1"
    Description := "new"
    SignerArn := ""
    SelfSigned := true
    AuditComment := ""
    UpdateToken := "t1" }

/-- A data-source request for the running phase of certificate `c1`. -/
def certificateDataRunning : CertificateData :=
  { certificateData with Id := "", config_type := "running", name := "c1" }

/-- A certificate client whose reads succeed for an object that was created but never
committed: the response has a candidate sub-record and no running one. -/
def certificateClientCandidateOnly : certificate.Client :=
  { Create := fun _ => none
    Read := fun _ => .ok { Response := { Candidate := some certificateRecord, Running := none } }
    Update := fun _ => none
    Delete := fun _ => fun _ => none }

/-- A custom-URL-category record as the server returns it. -/
def urlRecord : url.Info :=
  { Rulestack := "s1"
    Name := "u1"
    Description := "new"
    UrlList := ["example.com"]
    Action := "none"
    AuditComment := ""
    UpdateToken := "t1" }

/-- A data-source request for the running phase of URL category `u1`. -/
def customUrlCategoryDataRunning : CustomUrlCategoryData :=
  { customUrlCategoryData with Id := "", config_type := "running", name := "u1" }

/-- A URL-category client whose reads succeed with a candidate sub-record and no running
one. -/
def urlClientCandidateOnly : url.Client :=
  { Create := fun _ => none
    Read := fun _ => .ok { Response := { Candidate := some urlRecord, Running := none } }
    Update := fun _ => none
    Delete := fun _ => fun _ => none }

/-- A data-source request for the running phase of rule stack `stack1`. -/
def rulestackDataRunning : RulestackData :=
  { rulestackData with config_type := "running" }

/-- A rule stack tracked under an id that contains the separator. -/
def rulestackDataColonId : RulestackData :=
  { rulestackData with Id := "a:b" }

/-- The prior state of `fw1` when nothing but the subnet mapping is about to change: it
was attached to `subnet-a`. -/
def firewallPrior : FirewallPrior :=
  { description := ""
    app_id_version := ""
    subnet_mapping := .mk [.mk [("subnet_id", "subnet-a"), ("az", "")]] }

/-- The firewall `fw1` redeclared with the single subnet `subnet-b`. -/
def firewallDataSubnetB : FirewallData :=
  { firewallData with
    Id := "111:us-east-1:fw1"
    subnet_mapping := .mk [.mk [("subnet_id", "subnet-b"), ("az", "")]] }

/-- The firewall `fw1` redeclared with the single subnet `subnet-b` in zone `us-east-1a`. -/
def firewallDataSubnetBZone : FirewallData :=
  { firewallData with
    Id := "111:us-east-1:fw1"
    subnet_mapping := .mk [.mk [("subnet_id", "subnet-b"), ("az", "us-east-1a")]] }

/-- The firewall `fw1` redeclared with the same subnet `subnet-a`, now with a zone. -/
def firewallDataZoneOnly : FirewallData :=
  { firewallData with
    Id := "111:us-east-1:fw1"
    subnet_mapping := .mk [.mk [("subnet_id", "subnet-a"), ("az", "us-east-1a")]] }

/-- A prior state with two subnets. -/
def firewallPriorTwo : FirewallPrior :=
  { description := ""
    app_id_version := ""
    subnet_mapping :=
      .mk [.mk [("subnet_id", "subnet-a"), ("az", "")],
           .mk [("subnet_id", "subnet-b"), ("az", "")]] }

/-- The firewall `fw1` redeclared with the two subnets of `firewallPriorTwo` in the other
order. -/
def firewallDataReordered : FirewallData :=
  { firewallData with
    Id := "111:us-east-1:fw1"
    subnet_mapping :=
      .mk [.mk [("subnet_id", "subnet-b"), ("az", "")],
           .mk [("subnet_id", "subnet-a"), ("az", "")]] }

/-- A prior state that differs from `firewallDataSubnetB` in the description, the content
version and the subnet mapping. -/
def firewallPriorAll : FirewallPrior :=
  { description := "old"
    app_id_version := "100"
    subnet_mapping := .mk [.mk [("subnet_id", "subnet-a"), ("az", "")]] }

/-- The firewall `fw1` redeclared with a new content version and the subnet `subnet-b`. -/
def firewallDataAll : FirewallData :=
  { firewallDataSubnetB with app_id_version := "200" }

/-- A firewall client on which the content-version update fails and every other call
succeeds. -/
def firewallClientVersionFails : firewall.Client :=
  { firewallClient with
    UpdateNGFirewallContentVersion := fun _ => some (.api "version rejected" false) }

/-- A tag map with two entries. -/
def tagMap : GoMap String :=
  .mk [("env", "prod"), ("team", "net")]

/-- Two subnet mappings, the second with a zone. -/
def subnetMappings : Slice firewall.SubnetMapping :=
  .mk [{ SubnetId := "subnet-a" }, { SubnetId := "subnet-b", AvailabilityZone := "us-east-1a" }]

end sample

/-! ## Lemmas on splitting at the colon -/

theorem IdSeparator_data : IdSeparator.data = [':'] := rfl

theorem splitChars_colon_cons (c : Char) (rest : List Char) :
    strings.splitChars [':'] (c :: rest) 0 =
      if c = ':' then [] :: strings.splitChars [':'] rest 0
      else match strings.splitChars [':'] rest 0 with
        | [] => [[c]]
        | t :: ts => (c :: t) :: ts := by
  by_cases h : c = ':'
  · subst h
    simp [strings.splitChars, List.isPrefixOf]
  · have h2 : ¬ (':' = c) := fun e => h e.symm
    simp [strings.splitChars, List.isPrefixOf, h, h2]

theorem splitChars_colon_ne_nil (s : List Char) : strings.splitChars [':'] s 0 ≠ [] := by
  induction s with
  | nil => simp [strings.splitChars]
  | cons c rest ih =>
    rw [splitChars_colon_cons]
    split
    · simp
    · split <;> simp

theorem splitChars_colon_append (a b : List Char) (ha : ':' ∉ a) :
    strings.splitChars [':'] (a ++ ':' :: b) 0 = a :: strings.splitChars [':'] b 0 := by
  induction a with
  | nil => simp [splitChars_colon_cons]
  | cons c rest ih =>
    have hc : c ≠ ':' := fun e => ha (by simp [e])
    have hr : ':' ∉ rest := fun e => ha (by simp [e])
    rw [List.cons_append, splitChars_colon_cons, if_neg hc, ih hr]

theorem splitChars_colon_of_not_mem (a : List Char) (ha : ':' ∉ a) :
    strings.splitChars [':'] a 0 = [a] := by
  induction a with
  | nil => simp [strings.splitChars]
  | cons c rest ih =>
    have hc : c ≠ ':' := fun e => ha (by simp [e])
    have hr : ':' ∉ rest := fun e => ha (by simp [e])
    rw [splitChars_colon_cons, if_neg hc, ih hr]

theorem splitChars_colon_length (s : List Char) :
    (strings.splitChars [':'] s 0).length = s.count ':' + 1 := by
  induction s with
  | nil => simp [strings.splitChars]
  | cons c rest ih =>
    rw [splitChars_colon_cons]
    by_cases hc : c = ':'
    · subst hc
      simp [ih]
    · have hc2 : ¬ ((c == ':') = true) := by simpa using hc
      rw [if_neg hc, List.count_cons, if_neg hc2]
      cases hsp : strings.splitChars [':'] rest 0 with
      | nil => exact absurd hsp (splitChars_colon_ne_nil rest)
      | cons t ts =>
        rw [hsp] at ih
        simpa using ih

theorem Split_IdSeparator (v : String) :
    strings.Split v IdSeparator = (strings.splitChars [':'] v.data 0).map String.mk := by
  simp [strings.Split, IdSeparator_data]

theorem Split_IdSeparator_length (v : String) :
    (strings.Split v IdSeparator).length = v.data.count ':' + 1 := by
  rw [Split_IdSeparator, List.length_map, splitChars_colon_length]

theorem Contains_IdSeparator_chars (l : List Char) :
    (l.tails.any (fun t => [':'].isPrefixOf t)) = false ↔ ':' ∉ l := by
  induction l with
  | nil => simp [List.isPrefixOf]
  | cons c rest ih =>
    rw [List.tails, List.any_cons, Bool.or_eq_false_iff, ih]
    simp only [List.isPrefixOf, List.mem_cons, not_or]
    constructor
    · rintro ⟨h1, h2⟩
      refine ⟨?_, h2⟩
      intro e
      simp [e] at h1
      exact h1 e
    · rintro ⟨h1, h2⟩
      refine ⟨?_, h2⟩
      cases rest <;> simp [List.isPrefixOf, h1]

theorem Contains_IdSeparator_eq_false (s : String) :
    strings.Contains s IdSeparator = false ↔ ':' ∉ s.data := by
  unfold strings.Contains
  rw [IdSeparator_data]
  exact Contains_IdSeparator_chars s.data

theorem Join_pair (a b sep : String) : strings.Join [a, b] sep = a ++ sep ++ b := rfl

theorem Join_pair_data (a b : String) :
    (strings.Join [a, b] IdSeparator).data = a.data ++ ':' :: b.data := by
  simp [Join_pair, IdSeparator_data]

theorem Split_Join_pair (a b : String) (ha : ':' ∉ a.data) (hb : ':' ∉ b.data) :
    strings.Split (strings.Join [a, b] IdSeparator) IdSeparator = [a, b] := by
  rw [Split_IdSeparator, Join_pair_data, splitChars_colon_append _ _ ha,
    splitChars_colon_of_not_mem _ hb]
  rfl

/-! ## The identifier codec -/

/-- C1: for all strings `stack` and `name` that do not contain the id separator (the empty
string included), parsing the built certificate id gives back `(stack, name)` with a nil
error, and so does the custom-URL-category codec. -/
theorem parseId_buildId_roundtrip (stack name : String)
    (hs : strings.Contains stack IdSeparator = false)
    (hn : strings.Contains name IdSeparator = false) :
    parseCertificateId (buildCertificateId stack name) = (stack, name, none) ∧
    parseCustomUrlCategoryId (buildCustomUrlCategoryId stack name) = (stack, name, none) := by
  have ha := (Contains_IdSeparator_eq_false stack).1 hs
  have hb := (Contains_IdSeparator_eq_false name).1 hn
  constructor
  · simp only [parseCertificateId, buildCertificateId, Split_Join_pair stack name ha hb]
  · simp only [parseCustomUrlCategoryId, buildCustomUrlCategoryId,
      Split_Join_pair stack name ha hb]

theorem parseId_buildId_roundtrip_witness :
    (strings.Contains "stack1" IdSeparator = false ∧ strings.Contains "" IdSeparator = false) ∧
    parseCertificateId (buildCertificateId "stack1" "") = ("stack1", "", none) ∧
    parseCustomUrlCategoryId (buildCustomUrlCategoryId "stack1" "") = ("stack1", "", none) :=
  ⟨⟨by decide, by decide⟩, parseId_buildId_roundtrip "stack1" "" (by decide) (by decide)⟩

/-- C2: `parseCertificateId` and `parseCustomUrlCategoryId` are total; splitting `v` on the
separator yields one token more than `v` has separator occurrences; the error is non-nil
exactly when the token count is not 2, that is when `v` does not hold exactly one
separator; in the error case both components are empty and the message is
`Expecting 2 tokens, got n` for the token count `n`; the empty string has 1 token and is
rejected. -/
theorem parseId_error_iff_token_count (v : String) :
    IdSeparator = ":" ∧
    (strings.Split v IdSeparator).length = v.data.count ':' + 1 ∧
    ((parseCertificateId v).2.2 ≠ none ↔ (strings.Split v IdSeparator).length ≠ 2) ∧
    ((parseCertificateId v).2.2 ≠ none ↔ v.data.count ':' ≠ 1) ∧
    ((parseCertificateId v).2.2 = none ∨
      parseCertificateId v =
        ("", "", some (.errorf ("Expecting 2 tokens, got " ++
          toString (strings.Split v IdSeparator).length)))) ∧
    parseCustomUrlCategoryId v = parseCertificateId v ∧
    (strings.Split "" IdSeparator).length = 1 ∧
    parseCertificateId "" = ("", "", some (.errorf "Expecting 2 tokens, got 1")) ∧
    parseCustomUrlCategoryId "" = ("", "", some (.errorf "Expecting 2 tokens, got 1")) := by
  have hlen := Split_IdSeparator_length v
  have key : ((parseCertificateId v).2.2 ≠ none ↔ (strings.Split v IdSeparator).length ≠ 2) ∧
      ((parseCertificateId v).2.2 = none ∨
        parseCertificateId v =
          ("", "", some (.errorf ("Expecting 2 tokens, got " ++
            toString (strings.Split v IdSeparator).length)))) := by
    unfold parseCertificateId
    generalize strings.Split v IdSeparator = tok
    rcases tok with _ | ⟨a, _ | ⟨b, _ | ⟨c, rest⟩⟩⟩ <;> simp
  refine ⟨rfl, hlen, key.1, ?_, key.2, rfl, by decide, by decide, by decide⟩
  rw [key.1, hlen]
  omega

/-- C3: id encoding is plain concatenation: `buildCertificateId a b` and
`buildCustomUrlCategoryId a b` are `a`, the separator, `b` (so `stack1` and `cert1` give
`stack1:cert1`); and when its remote create succeeds, `createRulestack` sets the id to the
declared name and goes on with `readRulestack`, which looks that name up: the id it leaves
is the name, unless the read that follows reports not-found and clears it. -/
theorem buildId_is_concatenation (a b : String) (d : RulestackData) (svc : stack.Client)
    (hcreate : svc.Create (loadRulestack d) = none) :
    buildCertificateId a b = a ++ IdSeparator ++ b ∧
    buildCustomUrlCategoryId a b = a ++ IdSeparator ++ b ∧
    buildCertificateId "stack1" "cert1" = "stack1:cert1" ∧
    buildCustomUrlCategoryId "stack1" "cert1" = "stack1:cert1" ∧
    createRulestack d svc =
      { readRulestack { d with Id := d.name } svc with
        calls := .Create (loadRulestack d) :: (readRulestack { d with Id := d.name } svc).calls } ∧
    (createRulestack d svc).calls =
      [.Create (loadRulestack d), .Read { Name := d.name, Candidate := true }] ∧
    ((createRulestack d svc).d.Id = d.name ∨
      ((createRulestack d svc).d.Id = "" ∧
        ∃ err, svc.Read { Name := d.name, Candidate := true } = .error err ∧
          isObjectNotFound err = true)) := by
  refine ⟨rfl, rfl, by decide, by decide, ?_, ?_, ?_⟩
  · simp only [createRulestack, hcreate]
    rfl
  · simp only [createRulestack, hcreate, readRulestack]
    cases hr : svc.Read { Name := (loadRulestack d).Name, Candidate := true } with
    | error err => by_cases hnf : isObjectNotFound err = true <;> simp [hnf, loadRulestack]
    | ok res => cases hc : res.Response.Candidate <;> simp [loadRulestack, hc]
  · simp only [createRulestack, hcreate, readRulestack]
    cases hr : svc.Read { Name := (loadRulestack d).Name, Candidate := true } with
    | error err =>
      by_cases hnf : isObjectNotFound err = true
      · right
        refine ⟨by simp [hnf], err, ?_, hnf⟩
        simpa [loadRulestack] using hr
      · left
        simp [hnf, loadRulestack]
    | ok res =>
      left
      cases hc : res.Response.Candidate <;> simp [loadRulestack, saveRulestack, hc]

theorem buildId_is_concatenation_witness :
    sample.stackClient.Create (loadRulestack sample.rulestackData) = none ∧
    (createRulestack sample.rulestackData sample.stackClient).d.Id = "stack1" ∧
    (createRulestack sample.rulestackData sample.stackClient).calls =
      [.Create (loadRulestack sample.rulestackData),
       .Read { Name := "stack1", Candidate := true }] :=
  ⟨rfl, by decide,
    (buildId_is_concatenation "stack1" "cert1" sample.rulestackData sample.stackClient rfl).2.2.2.2.2.1⟩

/-! ## Create, read and delete -/

theorem firewallId_eq (a r n : String) :
    firewallId a r n = a ++ IdSeparator ++ r ++ IdSeparator ++ n := by
  simp [firewallId, strings.Join, String.append_assoc]

theorem saveFirewall_Id (isResource : Bool) (d : FirewallData) (name : String)
    (o : firewall.ReadResponse) : (saveFirewall isResource d name o).Id = d.Id := by
  unfold saveFirewall
  cases o.Status <;> cases isResource <;> rfl

/-- C4: when the remote create of `createFirewall` succeeds with a response, the id it sets
is `firewallId` of the account id and the name of the response's firewall record and of the
client's region, that is account, separator, region, separator, name; the declared
`account_id` and `name` do not enter it. `createFirewall` then goes on with `readFirewall`,
so the id it leaves is that id, unless the read that follows reports not-found and clears
it. -/
theorem createFirewall_id_from_response (d : FirewallData) (svc : firewall.Client)
    (o : firewall.Info) (res : firewall.ReadOutput) (resp : firewall.ReadResponse)
    (hload : loadFirewall d = some o) (hcreate : svc.Create o = .ok res)
    (hresp : res.Response = some resp) :
    createFirewall d svc =
      { readFirewall
          { d with Id := firewallId resp.Firewall.AccountId svc.Region resp.Firewall.Name } svc with
        calls := .Create o ::
          (readFirewall
            { d with Id := firewallId resp.Firewall.AccountId svc.Region resp.Firewall.Name }
            svc).calls } ∧
    firewallId resp.Firewall.AccountId svc.Region resp.Firewall.Name =
      resp.Firewall.AccountId ++ IdSeparator ++ svc.Region ++ IdSeparator ++ resp.Firewall.Name ∧
    ((createFirewall d svc).d.Id =
        firewallId resp.Firewall.AccountId svc.Region resp.Firewall.Name ∨
      ((createFirewall d svc).d.Id = "" ∧
        ∃ err, svc.Read { Name := d.name, AccountId := d.account_id } = .error err ∧
          isObjectNotFound err = true)) := by
  refine ⟨?_, firewallId_eq _ _ _, ?_⟩
  · simp only [createFirewall, hload, hcreate, hresp]
  · simp only [createFirewall, hload, hcreate, hresp, readFirewall]
    cases hr : svc.Read { Name := d.name, AccountId := d.account_id } with
    | error err =>
      by_cases hnf : isObjectNotFound err = true
      · right
        exact ⟨by simp [hnf], err, rfl, hnf⟩
      · left
        simp [hnf]
    | ok res2 =>
      left
      cases hc : res2.Response <;> simp [hc, saveFirewall_Id]

theorem createFirewall_id_from_response_witness :
    (loadFirewall sample.firewallData).isSome = true ∧
    sample.firewallData.account_id = "" ∧
    (createFirewall sample.firewallData sample.firewallClient).d.Id = "111:us-east-1:fw1" ∧
    firewallId "111" "us-east-1" "fw1" = "111" ++ IdSeparator ++ "us-east-1" ++ IdSeparator ++ "fw1" :=
  ⟨by decide, rfl, by decide,
    (createFirewall_id_from_response sample.firewallData sample.firewallClient
      ((loadFirewall sample.firewallData).get (by decide))
      { Response := some { Firewall := sample.firewallRecord, Status := none } }
      { Firewall := sample.firewallRecord, Status := none }
      (by decide) rfl rfl).2.1⟩

/-- C5: when the id decodes (for a rule stack every id does) and the remote read fails
with error `e`: if `e` is the not-found condition, `readCertificate`,
`readCustomUrlCategory` and `readRulestack` return no error and only the identifier
changes, to the empty string; for any other `e` they return `e` and change nothing. -/
theorem read_failure_handling (dc : CertificateData) (sc : certificate.Client)
    (du : CustomUrlCategoryData) (su : url.Client) (dr : RulestackData) (sr : stack.Client)
    (stack name ustack uname : String) (ec eu er : GoError)
    (hc : parseCertificateId dc.Id = (stack, name, none))
    (hcr : sc.Read { Rulestack := stack, Name := name, Candidate := true } = .error ec)
    (hu : parseCustomUrlCategoryId du.Id = (ustack, uname, none))
    (hur : su.Read { Rulestack := ustack, Name := uname, Candidate := true } = .error eu)
    (hrr : sr.Read { Name := dr.Id, Candidate := true } = .error er) :
    readCertificate dc sc =
      (if isObjectNotFound ec = true then
        ⟨{ dc with Id := "" },
          [.Read { Rulestack := stack, Name := name, Candidate := true }], .returned .nil⟩
      else
        ⟨dc, [.Read { Rulestack := stack, Name := name, Candidate := true }],
          .returned (.FromErr ec)⟩) ∧
    readCustomUrlCategory du su =
      (if isObjectNotFound eu = true then
        ⟨{ du with Id := "" },
          [.Read { Rulestack := ustack, Name := uname, Candidate := true }], .returned .nil⟩
      else
        ⟨du, [.Read { Rulestack := ustack, Name := uname, Candidate := true }],
          .returned (.FromErr eu)⟩) ∧
    readRulestack dr sr =
      (if isObjectNotFound er = true then
        ⟨{ dr with Id := "" }, [.Read { Name := dr.Id, Candidate := true }], .returned .nil⟩
      else
        ⟨dr, [.Read { Name := dr.Id, Candidate := true }], .returned (.FromErr er)⟩) := by
  refine ⟨?_, ?_, ?_⟩
  · simp only [readCertificate, hc, hcr]
  · simp only [readCustomUrlCategory, hu, hur]
  · simp only [readRulestack, hrr]

theorem read_failure_handling_witness :
    parseCertificateId "s1:missing" = ("s1", "missing", none) ∧
    readCertificate sample.certificateData sample.certificateClientNotFound =
      ⟨{ sample.certificateData with Id := "" },
        [.Read { Rulestack := "s1", Name := "missing", Candidate := true }], .returned .nil⟩ ∧
    readCustomUrlCategory sample.customUrlCategoryData sample.urlClientNotFound =
      ⟨{ sample.customUrlCategoryData with Id := "" },
        [.Read { Rulestack := "s1", Name := "missing", Candidate := true }], .returned .nil⟩ ∧
    readRulestack sample.rulestackData sample.stackClientNotFound =
      ⟨{ sample.rulestackData with Id := "" },
        [.Read { Name := "", Candidate := true }], .returned .nil⟩ :=
  ⟨by decide,
    read_failure_handling sample.certificateData sample.certificateClientNotFound
      sample.customUrlCategoryData sample.urlClientNotFound
      sample.rulestackData sample.stackClientNotFound
      "s1" "missing" "s1" "missing" (.api "not found" true) (.api "not found" true)
      (.api "not found" true) (by decide) rfl (by decide) rfl rfl⟩

/-- C6: when the id decodes (for a rule stack and a firewall nothing is decoded),
`deleteCertificate`, `deleteCustomUrlCategory`, `deleteRulestack` and `deleteFirewall`
issue the remote delete; if it succeeds or fails with the not-found condition they return
no error and only the identifier changes, to the empty string; if it fails with another
error they return that error and change nothing. -/
theorem delete_failure_handling (dc : CertificateData) (sc : certificate.Client)
    (du : CustomUrlCategoryData) (su : url.Client) (dr : RulestackData) (sr : stack.Client)
    (df : FirewallData) (sf : firewall.Client) (stack name ustack uname : String)
    (hc : parseCertificateId dc.Id = (stack, name, none))
    (hu : parseCustomUrlCategoryId du.Id = (ustack, uname, none)) :
    deleteCertificate dc sc =
      (match sc.Delete stack name with
      | none => ⟨{ dc with Id := "" }, [.Delete stack name], .returned .nil⟩
      | some e =>
        if isObjectNotFound e = true then
          ⟨{ dc with Id := "" }, [.Delete stack name], .returned .nil⟩
        else ⟨dc, [.Delete stack name], .returned (.FromErr e)⟩) ∧
    deleteCustomUrlCategory du su =
      (match su.Delete ustack uname with
      | none => ⟨{ du with Id := "" }, [.Delete ustack uname], .returned .nil⟩
      | some e =>
        if isObjectNotFound e = true then
          ⟨{ du with Id := "" }, [.Delete ustack uname], .returned .nil⟩
        else ⟨du, [.Delete ustack uname], .returned (.FromErr e)⟩) ∧
    deleteRulestack dr sr =
      (match sr.Delete dr.Id with
      | none => ⟨{ dr with Id := "" }, [.Delete dr.Id], .returned .nil⟩
      | some e =>
        if isObjectNotFound e = true then ⟨{ dr with Id := "" }, [.Delete dr.Id], .returned .nil⟩
        else ⟨dr, [.Delete dr.Id], .returned (.FromErr e)⟩) ∧
    deleteFirewall df sf =
      (match sf.Delete { Name := df.name, AccountId := df.account_id } with
      | none =>
        ⟨{ df with Id := "" }, [.Delete { Name := df.name, AccountId := df.account_id }],
          .returned .nil⟩
      | some e =>
        if isObjectNotFound e = true then
          ⟨{ df with Id := "" }, [.Delete { Name := df.name, AccountId := df.account_id }],
            .returned .nil⟩
        else
          ⟨df, [.Delete { Name := df.name, AccountId := df.account_id }],
            .returned (.FromErr e)⟩) := by
  refine ⟨?_, ?_, ?_, ?_⟩
  · simp only [deleteCertificate, hc]
    cases sc.Delete stack name with
    | none => rfl
    | some e => cases h : isObjectNotFound e <;> simp [h]
  · simp only [deleteCustomUrlCategory, hu]
    cases su.Delete ustack uname with
    | none => rfl
    | some e => cases h : isObjectNotFound e <;> simp [h]
  · simp only [deleteRulestack]
    cases sr.Delete dr.Id with
    | none => rfl
    | some e => cases h : isObjectNotFound e <;> simp [h]
  · have hacc : (if df.account_id ≠ "" then df.account_id else "") = df.account_id := by
      by_cases h : df.account_id = "" <;> simp [h]
    simp only [deleteFirewall, hacc]
    cases sf.Delete { Name := df.name, AccountId := df.account_id } with
    | none => rfl
    | some e => cases h : isObjectNotFound e <;> simp [h]

theorem delete_failure_handling_witness :
    parseCertificateId sample.certificateData.Id = ("s1", "missing", none) ∧
    parseCustomUrlCategoryId sample.customUrlCategoryData.Id = ("s1", "missing", none) ∧
    (deleteCertificate sample.certificateData sample.certificateClientNotFound).d.Id = "" ∧
    (deleteCertificate sample.certificateData sample.certificateClientNotFound).ending =
      .returned .nil ∧
    (deleteFirewall sample.firewallData sample.firewallClient).d.Id = "" ∧
    deleteRulestack sample.rulestackData sample.stackClient =
      ⟨{ sample.rulestackData with Id := "" }, [.Delete ""], .returned .nil⟩ :=
  ⟨by decide, by decide, by decide, by decide, by decide,
    (delete_failure_handling sample.certificateData sample.certificateClientNotFound
      sample.customUrlCategoryData sample.urlClientNotFound
      sample.rulestackData sample.stackClient sample.firewallData sample.firewallClient
      "s1" "missing" "s1" "missing" (by decide) (by decide)).2.2.1⟩

theorem parseCertificateId_of_length_ne_two (v : String)
    (h : (strings.Split v IdSeparator).length ≠ 2) :
    parseCertificateId v =
      ("", "", some (.errorf ("Expecting 2 tokens, got " ++
        toString (strings.Split v IdSeparator).length))) := by
  unfold parseCertificateId
  revert h
  generalize strings.Split v IdSeparator = tok
  intro h
  rcases tok with _ | ⟨a, _ | ⟨b, _ | ⟨c, rest⟩⟩⟩ <;> simp at h ⊢

/-- C7: for every identifier that does not split into exactly 2 tokens, `readCertificate`,
`deleteCertificate`, `readCustomUrlCategory` and `deleteCustomUrlCategory` return the
id-parsing error diagnostic, issue no remote call, and leave the identifier and every
declared field as they were. -/
theorem malformed_id_is_rejected (dc : CertificateData) (sc : certificate.Client)
    (du : CustomUrlCategoryData) (su : url.Client)
    (hc : (strings.Split dc.Id IdSeparator).length ≠ 2)
    (hu : (strings.Split du.Id IdSeparator).length ≠ 2) :
    readCertificate dc sc =
      ⟨dc, [], .returned (.Errorf dc.Id (.errorf ("Expecting 2 tokens, got " ++
        toString (strings.Split dc.Id IdSeparator).length)))⟩ ∧
    deleteCertificate dc sc =
      ⟨dc, [], .returned (.Errorf dc.Id (.errorf ("Expecting 2 tokens, got " ++
        toString (strings.Split dc.Id IdSeparator).length)))⟩ ∧
    readCustomUrlCategory du su =
      ⟨du, [], .returned (.Errorf du.Id (.errorf ("Expecting 2 tokens, got " ++
        toString (strings.Split du.Id IdSeparator).length)))⟩ ∧
    deleteCustomUrlCategory du su =
      ⟨du, [], .returned (.Errorf du.Id (.errorf ("Expecting 2 tokens, got " ++
        toString (strings.Split du.Id IdSeparator).length)))⟩ := by
  have h1 := parseCertificateId_of_length_ne_two dc.Id hc
  have h2 : parseCustomUrlCategoryId du.Id = _ := parseCertificateId_of_length_ne_two du.Id hu
  refine ⟨?_, ?_, ?_, ?_⟩
  · simp only [readCertificate, h1]
  · simp only [deleteCertificate, h1]
  · simp only [readCustomUrlCategory, h2]
  · simp only [deleteCustomUrlCategory, h2]

theorem malformed_id_is_rejected_witness :
    ((strings.Split sample.certificateDataBadId.Id IdSeparator).length ≠ 2 ∧
      (strings.Split sample.customUrlCategoryDataBadId.Id IdSeparator).length ≠ 2) ∧
    readCertificate sample.certificateDataBadId sample.certificateClientCandidateOnly =
      ⟨sample.certificateDataBadId, [],
        .returned (.Errorf "s1-missing" (.errorf "Expecting 2 tokens, got 1"))⟩ ∧
    deleteCertificate sample.certificateDataBadId sample.certificateClientCandidateOnly =
      ⟨sample.certificateDataBadId, [],
        .returned (.Errorf "s1-missing" (.errorf "Expecting 2 tokens, got 1"))⟩ ∧
    readCustomUrlCategory sample.customUrlCategoryDataBadId sample.urlClientCandidateOnly =
      ⟨sample.customUrlCategoryDataBadId, [],
        .returned (.Errorf "a:b:c" (.errorf "Expecting 2 tokens, got 3"))⟩ ∧
    deleteCustomUrlCategory sample.customUrlCategoryDataBadId sample.urlClientCandidateOnly =
      ⟨sample.customUrlCategoryDataBadId, [],
        .returned (.Errorf "a:b:c" (.errorf "Expecting 2 tokens, got 3"))⟩ :=
  ⟨⟨by decide, by decide⟩,
    malformed_id_is_rejected sample.certificateDataBadId sample.certificateClientCandidateOnly
      sample.customUrlCategoryDataBadId sample.urlClientCandidateOnly (by decide) (by decide)⟩

/-! ## Data-source reads and the phase sub-records -/

/-- C8 (the code at the failing input): a data-source read asks for the running phase, the
remote read succeeds and its response holds a candidate sub-record but no running one;
`readCertificateDataSource`, `readCustomUrlCategoryDataSource` and
`readRulestackDataSource` select the absent running sub-record and dereference it: the
operation panics instead of treating the object as not-found. -/
theorem dataSource_read_absent_subrecord_panics :
    sample.certificateClientCandidateOnly.Read
        { Rulestack := "s1", Name := "c1", Running := true } =
      .ok { Response := { Candidate := some sample.certificateRecord, Running := none } } ∧
    (readCertificateDataSource sample.package sample.certificateDataRunning
        sample.certificateClientCandidateOnly).calls =
      [.Read { Rulestack := "s1", Name := "c1", Running := true }] ∧
    (readCertificateDataSource sample.package sample.certificateDataRunning
        sample.certificateClientCandidateOnly).ending = .panicked ∧
    (readCustomUrlCategoryDataSource sample.package sample.customUrlCategoryDataRunning
        sample.urlClientCandidateOnly).calls =
      [.Read { Rulestack := "s1", Name := "u1", Running := true }] ∧
    (readCustomUrlCategoryDataSource sample.package sample.customUrlCategoryDataRunning
        sample.urlClientCandidateOnly).ending = .panicked ∧
    (readRulestackDataSource sample.package sample.rulestackDataRunning
        sample.stackClient).calls =
      [.Read { Name := "stack1", Running := true }] ∧
    (readRulestackDataSource sample.package sample.rulestackDataRunning
        sample.stackClient).ending = .panicked := by
  refine ⟨rfl, ?_, ?_, ?_, ?_, ?_, ?_⟩ <;> decide

/-! ## Identifiers that are not decoded -/

/-- C10 (counterexample): the id `a:b` contains the separator, yet `readRulestack` issues
the remote read for the name `a:b` and `deleteRulestack` the remote delete of `a:b`, and
both return no error. -/
theorem rulestack_id_token_count_counterexample :
    strings.Contains sample.rulestackDataColonId.Id IdSeparator = true ∧
    (strings.Split sample.rulestackDataColonId.Id IdSeparator).length = 2 ∧
    (readRulestack sample.rulestackDataColonId sample.stackClient).calls =
      [.Read { Name := "a:b", Candidate := true }] ∧
    (readRulestack sample.rulestackDataColonId sample.stackClient).ending = .returned .nil ∧
    (deleteRulestack sample.rulestackDataColonId sample.stackClient).calls = [.Delete "a:b"] ∧
    (deleteRulestack sample.rulestackDataColonId sample.stackClient).ending =
      .returned .nil := by
  refine ⟨?_, ?_, ?_, ?_, ?_, ?_⟩ <;> decide

/-- C10 (amended): a rule-stack identifier is not decoded: for every id, with or without
the separator, `readRulestack` issues exactly one remote read and `deleteRulestack` exactly
one remote delete, with the whole id as the rule-stack name, and neither ends with an
id-parsing error. -/
theorem rulestack_id_is_the_name (d : RulestackData) (svc : stack.Client) :
    (readRulestack d svc).calls = [.Read { Name := d.Id, Candidate := true }] ∧
    (deleteRulestack d svc).calls = [.Delete d.Id] ∧
    (∀ i e, (readRulestack d svc).ending ≠ .returned (.Errorf i e)) ∧
    (∀ i e, (deleteRulestack d svc).ending ≠ .returned (.Errorf i e)) := by
  refine ⟨?_, ?_, ?_, ?_⟩
  · simp only [readRulestack]
    cases hr : svc.Read { Name := d.Id, Candidate := true } with
    | error err => by_cases h : isObjectNotFound err = true <;> simp [h]
    | ok res => cases hc : res.Response.Candidate <;> simp [hc]
  · simp only [deleteRulestack]
    cases hr : svc.Delete d.Id with
    | none => simp
    | some err => by_cases h : isObjectNotFound err = true <;> simp [h]
  · intro i e
    simp only [readRulestack]
    cases hr : svc.Read { Name := d.Id, Candidate := true } with
    | error err => by_cases h : isObjectNotFound err = true <;> simp [h]
    | ok res => cases hc : res.Response.Candidate <;> simp [hc]
  · intro i e
    simp only [deleteRulestack]
    cases hr : svc.Delete d.Id with
    | none => simp
    | some err => by_cases h : isObjectNotFound err = true <;> simp [h]

/-! ## Firewall update: the delta and the order of the calls -/

theorem readFirewall_calls (d : FirewallData) (svc : firewall.Client) :
    (readFirewall d svc).calls = [.Read { Name := d.name, AccountId := d.account_id }] := by
  simp only [readFirewall]
  cases hr : svc.Read { Name := d.name, AccountId := d.account_id } with
  | error err => by_cases h : isObjectNotFound err = true <;> simp [h]
  | ok res => cases hc : res.Response <;> simp [hc]

theorem updateFirewall_refines (prior : FirewallPrior) (d : FirewallData)
    (svc : firewall.Client) (o : firewall.Info) (o_subnets n_subnets : List String)
    (hload : loadFirewall d = some o)
    (hold : subnetIds prior.subnet_mapping = some o_subnets)
    (hnew : subnetIds d.subnet_mapping = some n_subnets) :
    updateFirewall prior d svc =
      updateThenRead d svc (applicableUpdates prior d svc o o_subnets n_subnets) := by
  simp only [updateFirewall, hload, hold, hnew, updateThenRead, applicableUpdates,
    subnetMappingsRequest]
  by_cases h1 : prior.description = d.description <;>
  by_cases h2 : (prior.app_id_version ≠ d.app_id_version ∧ d.app_id_version ≠ "") <;>
  by_cases h3 : deepEqualMappings prior.subnet_mapping d.subnet_mapping = false <;>
  cases a1 : svc.UpdateDescription o <;>
  cases a2 : svc.UpdateNGFirewallContentVersion o <;>
  cases a3 : svc.UpdateSubnetMappings
    { o with
      AssociateSubnetMappings :=
        .mk ((sliceDiff n_subnets o_subnets).map (fun i => { SubnetId := i }))
      DisassociateSubnetMappings :=
        .mk ((sliceDiff o_subnets n_subnets).map (fun i => { SubnetId := i })) } <;>
  simp [issueInOrder, h1, h2, h3, a1, a2, a3]

theorem updateFirewall_payloads (prior : FirewallPrior) (d : FirewallData)
    (svc : firewall.Client) :
    subnetPayloads (updateFirewall prior d svc).calls = [] ∨
    (deepEqualMappings prior.subnet_mapping d.subnet_mapping = false ∧
      ∃ o_subnets n_subnets,
        subnetIds prior.subnet_mapping = some o_subnets ∧
        subnetIds d.subnet_mapping = some n_subnets ∧
        subnetPayloads (updateFirewall prior d svc).calls =
          [(.mk ((sliceDiff n_subnets o_subnets).map (fun i => { SubnetId := i })),
            .mk ((sliceDiff o_subnets n_subnets).map (fun i => { SubnetId := i })))]) := by
  cases hload : loadFirewall d with
  | none => simp [updateFirewall, hload, subnetPayloads]
  | some o =>
    simp only [updateFirewall, hload]
    by_cases h1 : prior.description = d.description <;>
    by_cases h2 : (prior.app_id_version ≠ d.app_id_version ∧ d.app_id_version ≠ "") <;>
    by_cases h3 : deepEqualMappings prior.subnet_mapping d.subnet_mapping = false <;>
    cases a1 : svc.UpdateDescription o <;>
    cases a2 : svc.UpdateNGFirewallContentVersion o <;>
    cases hold : subnetIds prior.subnet_mapping <;>
    cases hnew : subnetIds d.subnet_mapping <;>
    simp [h1, h2, h3, a1, a2, hold, hnew, subnetPayloads, readFirewall_calls] <;>
    split <;> simp [subnetPayloads, readFirewall_calls]

theorem updateFirewall_payload_of_mem (prior : FirewallPrior) (d : FirewallData)
    (svc : firewall.Client) (p : Slice firewall.SubnetMapping × Slice firewall.SubnetMapping)
    (hp : p ∈ subnetPayloads (updateFirewall prior d svc).calls) :
    deepEqualMappings prior.subnet_mapping d.subnet_mapping = false ∧
    ∃ o_subnets n_subnets,
      subnetIds prior.subnet_mapping = some o_subnets ∧
      subnetIds d.subnet_mapping = some n_subnets ∧
      p = (.mk ((sliceDiff n_subnets o_subnets).map (fun i => { SubnetId := i })),
           .mk ((sliceDiff o_subnets n_subnets).map (fun i => { SubnetId := i }))) := by
  rcases updateFirewall_payloads prior d svc with h | ⟨hch, o_subnets, n_subnets, ho, hn, h⟩
  · rw [h] at hp
    simp at hp
  · rw [h] at hp
    exact ⟨hch, o_subnets, n_subnets, ho, hn, by simpa using hp⟩

theorem subnetId_map_mk (l : List String) :
    (l.map (fun i => ({ SubnetId := i } : firewall.SubnetMapping))).map
      (fun m => m.SubnetId) = l := by
  simp [List.map_map, Function.comp_def]

theorem mem_sliceDiff (a b : List String) (k : String) :
    k ∈ sliceDiff a b ↔ k ∈ a ∧ k ∉ b := by
  simp [sliceDiff, List.mem_filter]

/-- C11 (counterexample): the subnet mapping changes from `subnet-a` to `subnet-b` in zone
`us-east-1a`; the associate payload of `updateFirewall` is the record with subnet id
`subnet-b` and an empty zone, which is not the element of the new value. -/
theorem updateFirewall_toAdd_elements_counterexample :
    subnetIds sample.firewallPrior.subnet_mapping = some ["subnet-a"] ∧
    loadSubnetMappings sample.firewallDataSubnetBZone.subnet_mapping =
      some (.mk [{ SubnetId := "subnet-b", AvailabilityZone := "us-east-1a" }]) ∧
    subnetPayloads (updateFirewall sample.firewallPrior sample.firewallDataSubnetBZone
        sample.firewallClient).calls =
      [(.mk [{ SubnetId := "subnet-b", AvailabilityZone := "" }],
        .mk [{ SubnetId := "subnet-a", AvailabilityZone := "" }])] ∧
    (Slice.mk [{ SubnetId := "subnet-b", AvailabilityZone := "" }] :
        Slice firewall.SubnetMapping) ≠
      .mk [{ SubnetId := "subnet-b", AvailabilityZone := "us-east-1a" }] := by
  refine ⟨?_, ?_, ?_, ?_⟩ <;> decide

theorem mem_subnet_records (l : List String) (m : firewall.SubnetMapping) :
    m ∈ l.map (fun i => ({ SubnetId := i } : firewall.SubnetMapping)) ↔
      m.SubnetId ∈ l ∧ m.AvailabilityZone = "" := by
  constructor
  · intro h
    obtain ⟨i, hi, rfl⟩ := List.mem_map.1 h
    exact ⟨hi, rfl⟩
  · rintro ⟨hi, haz⟩
    refine List.mem_map.2 ⟨m.SubnetId, hi, ?_⟩
    cases m
    simp_all

/-- C11 (amended): whenever `updateFirewall` calls `UpdateSubnetMappings`, a record is in
the associate payload exactly when its subnet id is a subnet id of the new value that is
absent from the old value and its availability zone is empty, and in the disassociate
payload exactly when its subnet id is a subnet id of the old value that is absent from the
new one and its availability zone is empty: the payload records carry the subnet id only. -/
theorem updateFirewall_delta_by_subnet_id (prior : FirewallPrior) (d : FirewallData)
    (svc : firewall.Client) (p : Slice firewall.SubnetMapping × Slice firewall.SubnetMapping)
    (hp : p ∈ subnetPayloads (updateFirewall prior d svc).calls) :
    ∃ o_subnets n_subnets,
      subnetIds prior.subnet_mapping = some o_subnets ∧
      subnetIds d.subnet_mapping = some n_subnets ∧
      (∀ m : firewall.SubnetMapping, m ∈ p.1.elems ↔
        (m.SubnetId ∈ n_subnets ∧ m.SubnetId ∉ o_subnets) ∧ m.AvailabilityZone = "") ∧
      (∀ m : firewall.SubnetMapping, m ∈ p.2.elems ↔
        (m.SubnetId ∈ o_subnets ∧ m.SubnetId ∉ n_subnets) ∧ m.AvailabilityZone = "") := by
  obtain ⟨_, o_subnets, n_subnets, ho, hn, h⟩ := updateFirewall_payload_of_mem prior d svc p hp
  refine ⟨o_subnets, n_subnets, ho, hn, ?_, ?_⟩
  · intro m
    rw [h]
    simp only [Slice.elems]
    rw [mem_subnet_records, mem_sliceDiff]
  · intro m
    rw [h]
    simp only [Slice.elems]
    rw [mem_subnet_records, mem_sliceDiff]

theorem updateFirewall_delta_by_subnet_id_witness :
    subnetPayloads (updateFirewall sample.firewallPrior sample.firewallDataSubnetB
        sample.firewallClient).calls =
      [(.mk [{ SubnetId := "subnet-b" }], .mk [{ SubnetId := "subnet-a" }])] ∧
    ((.mk [{ SubnetId := "subnet-b" }], .mk [{ SubnetId := "subnet-a" }]) ∈
      subnetPayloads (updateFirewall sample.firewallPrior sample.firewallDataSubnetB
        sample.firewallClient).calls) ∧
    ∃ o_subnets n_subnets,
      subnetIds sample.firewallPrior.subnet_mapping = some o_subnets ∧
      subnetIds sample.firewallDataSubnetB.subnet_mapping = some n_subnets ∧
      (∀ m : firewall.SubnetMapping, m ∈ [({ SubnetId := "subnet-b" } : firewall.SubnetMapping)] ↔
        (m.SubnetId ∈ n_subnets ∧ m.SubnetId ∉ o_subnets) ∧ m.AvailabilityZone = "") ∧
      (∀ m : firewall.SubnetMapping, m ∈ [({ SubnetId := "subnet-a" } : firewall.SubnetMapping)] ↔
        (m.SubnetId ∈ o_subnets ∧ m.SubnetId ∉ n_subnets) ∧ m.AvailabilityZone = "") :=
  ⟨by decide, by decide,
    updateFirewall_delta_by_subnet_id sample.firewallPrior sample.firewallDataSubnetB
      sample.firewallClient (.mk [{ SubnetId := "subnet-b" }], .mk [{ SubnetId := "subnet-a" }])
      (by decide)⟩

/-- C12: whenever `updateFirewall` calls `UpdateSubnetMappings`, on subnet ids the new keys
are the old keys without the keys to remove, together with the keys to add, and no key is
both added and removed. -/
theorem updateFirewall_delta_partitions (prior : FirewallPrior) (d : FirewallData)
    (svc : firewall.Client) (p : Slice firewall.SubnetMapping × Slice firewall.SubnetMapping)
    (hp : p ∈ subnetPayloads (updateFirewall prior d svc).calls) :
    ∃ o_subnets n_subnets,
      subnetIds prior.subnet_mapping = some o_subnets ∧
      subnetIds d.subnet_mapping = some n_subnets ∧
      (∀ k, k ∈ n_subnets ↔
        (k ∈ o_subnets ∧ k ∉ p.2.elems.map (fun m => m.SubnetId)) ∨
          k ∈ p.1.elems.map (fun m => m.SubnetId)) ∧
      (∀ k, ¬ (k ∈ p.1.elems.map (fun m => m.SubnetId) ∧
        k ∈ p.2.elems.map (fun m => m.SubnetId))) := by
  obtain ⟨_, o_subnets, n_subnets, ho, hn, h⟩ := updateFirewall_payload_of_mem prior d svc p hp
  refine ⟨o_subnets, n_subnets, ho, hn, ?_, ?_⟩
  · intro k
    rw [h]
    simp only [Slice.elems, subnetId_map_mk, mem_sliceDiff]
    by_cases hko : k ∈ o_subnets <;> by_cases hkn : k ∈ n_subnets <;> simp [hko, hkn]
  · intro k
    rw [h]
    simp only [Slice.elems, subnetId_map_mk, mem_sliceDiff]
    by_cases hko : k ∈ o_subnets <;> by_cases hkn : k ∈ n_subnets <;> simp [hko, hkn]

theorem updateFirewall_delta_partitions_witness :
    ((.mk [{ SubnetId := "subnet-b" }], .mk [{ SubnetId := "subnet-a" }]) ∈
      subnetPayloads (updateFirewall sample.firewallPrior sample.firewallDataSubnetB
        sample.firewallClient).calls) ∧
    ∃ o_subnets n_subnets,
      subnetIds sample.firewallPrior.subnet_mapping = some o_subnets ∧
      subnetIds sample.firewallDataSubnetB.subnet_mapping = some n_subnets ∧
      (∀ k, k ∈ n_subnets ↔ (k ∈ o_subnets ∧ k ∉ ["subnet-a"]) ∨ k ∈ ["subnet-b"]) ∧
      (∀ k, ¬ (k ∈ ["subnet-b"] ∧ k ∈ ["subnet-a"])) :=
  ⟨by decide,
    updateFirewall_delta_partitions sample.firewallPrior sample.firewallDataSubnetB
      sample.firewallClient (.mk [{ SubnetId := "subnet-b" }], .mk [{ SubnetId := "subnet-a" }])
      (by decide)⟩

theorem sliceDiff_map_eq_nil (a b : List String) :
    (sliceDiff a b).map (fun i => ({ SubnetId := i } : firewall.SubnetMapping)) = [] ↔
      ∀ k, k ∈ a → k ∈ b := by
  simp [sliceDiff, List.filter_eq_nil_iff]

/-- C15 (counterexample): the declared subnet mapping changes only in the zone of
`subnet-a`, or only in the order of its two elements; `updateFirewall` calls
`UpdateSubnetMappings` all the same, and both payloads of the request are empty. -/
theorem updateFirewall_noop_request_counterexample :
    deepEqualMappings sample.firewallPrior.subnet_mapping
      sample.firewallDataZoneOnly.subnet_mapping = false ∧
    subnetPayloads (updateFirewall sample.firewallPrior sample.firewallDataZoneOnly
        sample.firewallClient).calls = [(.mk [], .mk [])] ∧
    deepEqualMappings sample.firewallPriorTwo.subnet_mapping
      sample.firewallDataReordered.subnet_mapping = false ∧
    subnetPayloads (updateFirewall sample.firewallPriorTwo sample.firewallDataReordered
        sample.firewallClient).calls = [(.mk [], .mk [])] := by
  refine ⟨?_, ?_, ?_, ?_⟩ <;> decide

theorem updateFirewall_payloads_eq (prior : FirewallPrior) (d : FirewallData)
    (svc : firewall.Client) (o : firewall.Info) (o_subnets n_subnets : List String)
    (hload : loadFirewall d = some o)
    (hold : subnetIds prior.subnet_mapping = some o_subnets)
    (hnew : subnetIds d.subnet_mapping = some n_subnets) :
    subnetPayloads (updateFirewall prior d svc).calls =
      if deepEqualMappings prior.subnet_mapping d.subnet_mapping = false ∧
          (prior.description = d.description ∨ svc.UpdateDescription o = none) ∧
          (¬ (prior.app_id_version ≠ d.app_id_version ∧ d.app_id_version ≠ "") ∨
            svc.UpdateNGFirewallContentVersion o = none) then
        [(.mk ((sliceDiff n_subnets o_subnets).map (fun i => { SubnetId := i })),
          .mk ((sliceDiff o_subnets n_subnets).map (fun i => { SubnetId := i })))]
      else [] := by
  simp only [updateFirewall, hload, hold, hnew]
  by_cases h1 : prior.description = d.description <;>
  by_cases h2 : (prior.app_id_version ≠ d.app_id_version ∧ d.app_id_version ≠ "") <;>
  by_cases h3 : deepEqualMappings prior.subnet_mapping d.subnet_mapping = false <;>
  cases a1 : svc.UpdateDescription o <;>
  cases a2 : svc.UpdateNGFirewallContentVersion o <;>
  simp [h1, h2, h3, a1, a2, subnetPayloads, readFirewall_calls] <;>
  split <;> simp [subnetPayloads, readFirewall_calls]

/-- C15 (amended): on declared state whose subnet-mapping elements carry their subnet id,
`updateFirewall` calls `UpdateSubnetMappings` exactly when the declared subnet mapping is
reported changed and no earlier update call of the pass (description, content version)
failed, and then once; the two payloads of the request are both empty exactly when the
old and the new value hold the same subnet ids, so at least one payload is non-empty if and
only if the sets of subnet ids differ; in particular a change that keeps the subnet ids
(only the zone or only the order changed) still issues the call, with two empty
payloads. -/
theorem updateFirewall_request_gated_by_change (prior : FirewallPrior) (d : FirewallData)
    (svc : firewall.Client) (o : firewall.Info) (o_subnets n_subnets : List String)
    (hload : loadFirewall d = some o)
    (hold : subnetIds prior.subnet_mapping = some o_subnets)
    (hnew : subnetIds d.subnet_mapping = some n_subnets) :
    subnetPayloads (updateFirewall prior d svc).calls =
      (if deepEqualMappings prior.subnet_mapping d.subnet_mapping = false ∧
          (prior.description = d.description ∨ svc.UpdateDescription o = none) ∧
          (¬ (prior.app_id_version ≠ d.app_id_version ∧ d.app_id_version ≠ "") ∨
            svc.UpdateNGFirewallContentVersion o = none) then
        [(.mk ((sliceDiff n_subnets o_subnets).map (fun i => { SubnetId := i })),
          .mk ((sliceDiff o_subnets n_subnets).map (fun i => { SubnetId := i })))]
      else []) ∧
    (((sliceDiff n_subnets o_subnets).map
          (fun i => ({ SubnetId := i } : firewall.SubnetMapping)) = [] ∧
        (sliceDiff o_subnets n_subnets).map
          (fun i => ({ SubnetId := i } : firewall.SubnetMapping)) = []) ↔
      ∀ k, k ∈ o_subnets ↔ k ∈ n_subnets) ∧
    (deepEqualMappings prior.subnet_mapping d.subnet_mapping = false →
      (prior.description = d.description ∨ svc.UpdateDescription o = none) →
      (¬ (prior.app_id_version ≠ d.app_id_version ∧ d.app_id_version ≠ "") ∨
        svc.UpdateNGFirewallContentVersion o = none) →
      (∀ k, k ∈ o_subnets ↔ k ∈ n_subnets) →
      subnetPayloads (updateFirewall prior d svc).calls = [(.mk [], .mk [])]) := by
  have heq := updateFirewall_payloads_eq prior d svc o o_subnets n_subnets hload hold hnew
  have hempty : ((sliceDiff n_subnets o_subnets).map
        (fun i => ({ SubnetId := i } : firewall.SubnetMapping)) = [] ∧
      (sliceDiff o_subnets n_subnets).map
        (fun i => ({ SubnetId := i } : firewall.SubnetMapping)) = []) ↔
      ∀ k, k ∈ o_subnets ↔ k ∈ n_subnets := by
    simp only [sliceDiff_map_eq_nil]
    constructor
    · rintro ⟨h1, h2⟩ k
      exact ⟨h2 k, h1 k⟩
    · intro hk
      exact ⟨fun k => (hk k).2, fun k => (hk k).1⟩
  refine ⟨heq, hempty, ?_⟩
  intro hch hd hv hsame
  rw [heq, if_pos ⟨hch, hd, hv⟩, (hempty.2 hsame).1, (hempty.2 hsame).2]

theorem updateFirewall_request_gated_by_change_witness :
    (loadFirewall sample.firewallDataZoneOnly).isSome = true ∧
    subnetIds sample.firewallPrior.subnet_mapping = some ["subnet-a"] ∧
    subnetIds sample.firewallDataZoneOnly.subnet_mapping = some ["subnet-a"] ∧
    deepEqualMappings sample.firewallPrior.subnet_mapping
      sample.firewallDataZoneOnly.subnet_mapping = false ∧
    subnetPayloads (updateFirewall sample.firewallPrior sample.firewallDataZoneOnly
        sample.firewallClient).calls = [(.mk [], .mk [])] :=
  ⟨by decide, by decide, by decide, by decide,
    (updateFirewall_request_gated_by_change sample.firewallPrior sample.firewallDataZoneOnly
      sample.firewallClient ((loadFirewall sample.firewallDataZoneOnly).get (by decide))
      ["subnet-a"] ["subnet-a"] (by decide) (by decide) (by decide)).2.2
      (by decide) (Or.inl (by decide)) (Or.inl (by decide)) (fun _ => Iff.rfl)⟩

theorem issueInOrder_all_ok (us : List (firewall.Call × Option GoError))
    (h : ∀ u ∈ us, u.2 = none) : issueInOrder us = (us.map (fun u => u.1), none) := by
  induction us with
  | nil => rfl
  | cons u rest ih =>
    obtain ⟨c, a⟩ := u
    have ha : a = none := h (c, a) (by simp)
    subst ha
    have ih2 := ih (fun u hu => h u (by simp [hu]))
    simp [issueInOrder, ih2]

theorem issueInOrder_first_failure (pre post : List (firewall.Call × Option GoError))
    (c : firewall.Call) (e : GoError) (h : ∀ u ∈ pre, u.2 = none) :
    issueInOrder (pre ++ (c, some e) :: post) = (pre.map (fun u => u.1) ++ [c], some e) := by
  induction pre with
  | nil => rfl
  | cons u rest ih =>
    obtain ⟨c0, a⟩ := u
    have ha : a = none := h (c0, a) (by simp)
    subst ha
    have ih2 := ih (fun u hu => h u (by simp [hu]))
    simp [issueInOrder, ih2]

theorem applicableUpdates_sublist (prior : FirewallPrior) (d : FirewallData)
    (svc : firewall.Client) (o : firewall.Info) (o_subnets n_subnets : List String) :
    List.Sublist ((applicableUpdates prior d svc o o_subnets n_subnets).map (fun u => u.1))
      [.UpdateDescription o, .UpdateNGFirewallContentVersion o,
       .UpdateSubnetMappings (subnetMappingsRequest o o_subnets n_subnets)] := by
  unfold applicableUpdates
  by_cases h1 : prior.description = d.description <;>
  by_cases h2 : (prior.app_id_version ≠ d.app_id_version ∧ d.app_id_version ≠ "") <;>
  by_cases h3 : deepEqualMappings prior.subnet_mapping d.subnet_mapping = false <;>
  simp [h1, h2, h3]

/-- C16: on declared state whose subnet-mapping elements carry their subnet id,
`updateFirewall` is the update sequence of the spec: the calls that apply are issued in the
order description, content version, subnet mappings; at the first one that fails the
operation returns that error with exactly the calls issued so far (no later update, no
read) and the declared state as it was; when all of them succeed the read follows, after
them. -/
theorem updateFirewall_order_and_abort (prior : FirewallPrior) (d : FirewallData)
    (svc : firewall.Client) (o : firewall.Info) (o_subnets n_subnets : List String)
    (hload : loadFirewall d = some o)
    (hold : subnetIds prior.subnet_mapping = some o_subnets)
    (hnew : subnetIds d.subnet_mapping = some n_subnets) :
    updateFirewall prior d svc =
      updateThenRead d svc (applicableUpdates prior d svc o o_subnets n_subnets) ∧
    List.Sublist ((applicableUpdates prior d svc o o_subnets n_subnets).map (fun u => u.1))
      [.UpdateDescription o, .UpdateNGFirewallContentVersion o,
       .UpdateSubnetMappings (subnetMappingsRequest o o_subnets n_subnets)] ∧
    (∀ pre c e post,
      applicableUpdates prior d svc o o_subnets n_subnets = pre ++ (c, some e) :: post →
      (∀ u ∈ pre, u.2 = none) →
      updateFirewall prior d svc =
        ⟨d, pre.map (fun u => u.1) ++ [c], .returned (.FromErr e)⟩) ∧
    ((∀ u ∈ applicableUpdates prior d svc o o_subnets n_subnets, u.2 = none) →
      updateFirewall prior d svc =
        { readFirewall d svc with
          calls := (applicableUpdates prior d svc o o_subnets n_subnets).map (fun u => u.1) ++
            [.Read { Name := d.name, AccountId := d.account_id }] }) := by
  have href := updateFirewall_refines prior d svc o o_subnets n_subnets hload hold hnew
  refine ⟨href, applicableUpdates_sublist prior d svc o o_subnets n_subnets, ?_, ?_⟩
  · intro pre c e post hsplit hpre
    rw [href, hsplit]
    simp only [updateThenRead, issueInOrder_first_failure pre post c e hpre]
  · intro hall
    rw [href]
    simp only [updateThenRead, issueInOrder_all_ok _ hall, readFirewall_calls]

theorem updateFirewall_order_and_abort_witness :
    (loadFirewall sample.firewallDataAll).isSome = true ∧
    subnetIds sample.firewallPriorAll.subnet_mapping = some ["subnet-a"] ∧
    subnetIds sample.firewallDataAll.subnet_mapping = some ["subnet-b"] ∧
    (updateFirewall sample.firewallPriorAll sample.firewallDataAll
        sample.firewallClientVersionFails).d = sample.firewallDataAll ∧
    (updateFirewall sample.firewallPriorAll sample.firewallDataAll
        sample.firewallClientVersionFails).ending =
      .returned (.FromErr (.api "version rejected" false)) ∧
    (updateFirewall sample.firewallPriorAll sample.firewallDataAll
        sample.firewallClientVersionFails).calls.length = 2 ∧
    (updateFirewall sample.firewallPriorAll sample.firewallDataAll
        sample.firewallClient).calls.length = 4 ∧
    updateFirewall sample.firewallPriorAll sample.firewallDataAll
        sample.firewallClientVersionFails =
      updateThenRead sample.firewallDataAll sample.firewallClientVersionFails
        (applicableUpdates sample.firewallPriorAll sample.firewallDataAll
          sample.firewallClientVersionFails
          ((loadFirewall sample.firewallDataAll).get (by decide)) ["subnet-a"] ["subnet-b"]) :=
  ⟨by decide, by decide, by decide, by decide, by decide, by decide, by decide,
    (updateFirewall_order_and_abort sample.firewallPriorAll sample.firewallDataAll
      sample.firewallClientVersionFails
      ((loadFirewall sample.firewallDataAll).get (by decide)) ["subnet-a"] ["subnet-b"]
      (by decide) (by decide) (by decide)).1⟩

/-! ## Tags and subnet mappings: save and load -/

theorem setEntry_of_not_mem (acc : List (String × String)) (k v : String)
    (h : k ∉ acc.map (fun e => e.1)) : setEntry acc k v = acc ++ [(k, v)] := by
  induction acc with
  | nil => rfl
  | cons e rest ih =>
    obtain ⟨k0, v0⟩ := e
    have hk : k0 ≠ k := fun e => h (by simp [e])
    have hr : k ∉ rest.map (fun e => e.1) := fun e => h (by simp [e])
    simp [setEntry, hk, ih hr]

theorem foldl_setEntry_of_nodup (l : List firewall.TagDetails) :
    ∀ acc : List (String × String),
      (acc.map (fun e => e.1) ++ l.map (fun t => t.Key)).Nodup →
      l.foldl (fun t v => setEntry t v.Key v.Value) acc =
        acc ++ l.map (fun t => (t.Key, t.Value)) := by
  induction l with
  | nil => intro acc _; simp
  | cons t rest ih =>
    intro acc hnd
    have hk : t.Key ∉ acc.map (fun e => e.1) := by
      intro hmem
      have := (List.nodup_append.1 hnd).2.2
      exact this hmem (by simp)
    rw [List.foldl_cons, setEntry_of_not_mem acc t.Key t.Value hk, ih]
    · simp
    · simpa [List.append_assoc] using hnd

theorem saveTags_loadTags_entries (m : GoMap String) (hm : m.keys.Nodup) :
    (saveTags (loadTags m)).entries = m.entries := by
  cases m with
  | nil => rfl
  | mk es =>
    have hnd : ((([] : List (String × String)).map (fun e => e.1)) ++
        (es.map (fun e => ({ Key := e.1, Value := e.2 } : firewall.TagDetails))).map
          (fun t => t.Key)).Nodup := by
      simpa [GoMap.keys, GoMap.entries, List.map_map, Function.comp_def] using hm
    simp only [loadTags, saveTags, GoMap.entries]
    rw [foldl_setEntry_of_nodup _ [] hnd]
    simp [List.map_map, Function.comp_def]

theorem lookup_eq_some_iff (es : List (String × String))
    (hnd : (es.map (fun e => e.1)).Nodup) (k v : String) :
    (GoMap.mk es).lookup k = some v ↔ (k, v) ∈ es := by
  induction es with
  | nil => simp [GoMap.lookup]
  | cons e rest ih =>
    obtain ⟨k0, v0⟩ := e
    have hnd2 : (rest.map (fun e => e.1)).Nodup := (List.nodup_cons.1 hnd).2
    have hk0 : k0 ∉ rest.map (fun e => e.1) := (List.nodup_cons.1 hnd).1
    have ih2 := ih hnd2
    simp only [GoMap.lookup] at ih2 ⊢
    by_cases hk : k0 = k
    · subst hk
      have hnot : ∀ w, (k0, w) ∉ rest := fun w hw => hk0 (List.mem_map.2 ⟨(k0, w), hw, rfl⟩)
      simp [List.find?, hnot]
      exact eq_comm
    · have hk2 : ¬ (k = k0) := fun e => hk e.symm
      simp [List.find?, hk, hk2]
      simpa using ih2

theorem lookup_entries (m : GoMap String) (k : String) :
    m.lookup k = (GoMap.mk m.entries).lookup k := by
  cases m <;> rfl

theorem lookup_perm (es es2 : List (String × String)) (hp : es2.Perm es)
    (hnd : (es.map (fun e => e.1)).Nodup) (k : String) :
    (GoMap.mk es2).lookup k = (GoMap.mk es).lookup k := by
  have hnd2 : (es2.map (fun e => e.1)).Nodup := ((hp.map (fun e => e.1)).nodup_iff).2 hnd
  apply Option.ext
  intro v
  simp only [Option.mem_def]
  rw [lookup_eq_some_iff es2 hnd2, lookup_eq_some_iff es hnd]
  exact hp.mem_iff

/-- C13: for every tag map `m` (its keys pairwise distinct), `loadTags` yields one
(key, value) record per entry of `m`, as many as `m` has entries and with pairwise distinct
keys, and `saveTags` rebuilds from them the entries of `m` (the map `m` itself when `m` is
not nil); whatever the order in which the entries are visited, the rebuilt map has the
values of `m` under every key. -/
theorem saveTags_loadTags_roundtrip (m : GoMap String) (hm : m.keys.Nodup) :
    (saveTags (loadTags m)).entries = m.entries ∧
    (m ≠ .nil → saveTags (loadTags m) = m) ∧
    (loadTags m).elems = m.entries.map (fun e => { Key := e.1, Value := e.2 }) ∧
    (loadTags m).elems.length = m.entries.length ∧
    ((loadTags m).elems.map (fun t => t.Key)).Nodup ∧
    (∀ m2 : GoMap String, m2.entries.Perm m.entries →
      ∀ k, (saveTags (loadTags m2)).lookup k = m.lookup k) := by
  have hent := saveTags_loadTags_entries m hm
  have helems : (loadTags m).elems =
      m.entries.map (fun e => ({ Key := e.1, Value := e.2 } : firewall.TagDetails)) := by
    cases m <;> rfl
  refine ⟨hent, ?_, helems, ?_, ?_, ?_⟩
  · intro hne
    cases m with
    | nil => exact absurd rfl hne
    | mk es =>
      have h2 : (saveTags (loadTags (.mk es))).entries = es := hent
      cases hs : saveTags (loadTags (.mk es)) with
      | nil => simp [saveTags, loadTags] at hs
      | mk es2 =>
        rw [hs] at h2
        simp only [GoMap.entries] at h2
        rw [h2]
  · rw [helems, List.length_map]
  · rw [helems]
    simpa [GoMap.keys, List.map_map, Function.comp_def] using hm
  · intro m2 hperm k
    have hnd : (m.entries.map (fun e => e.1)).Nodup := hm
    have hnd2 : m2.keys.Nodup := by
      have h2 : (m2.entries.map (fun e => e.1)).Nodup :=
        ((hperm.map (fun e => e.1)).nodup_iff).2 hnd
      exact h2
    rw [lookup_entries (saveTags (loadTags m2)), saveTags_loadTags_entries m2 hnd2,
      lookup_entries m]
    exact lookup_perm m.entries m2.entries hperm hnd k

theorem saveTags_loadTags_roundtrip_witness :
    sample.tagMap.keys.Nodup ∧
    saveTags (loadTags sample.tagMap) = sample.tagMap ∧
    (loadTags sample.tagMap).elems =
      [{ Key := "env", Value := "prod" }, { Key := "team", Value := "net" }] ∧
    (saveTags (loadTags (.mk [("team", "net"), ("env", "prod")]))).lookup "env" =
      sample.tagMap.lookup "env" :=
  ⟨by decide,
    (saveTags_loadTags_roundtrip sample.tagMap (by decide)).2.1 (by decide),
    by decide, by decide⟩

/-- C14: empty collections are saved and loaded as empty, never as nil: `saveTags` gives an
empty non-nil map for a nil and for a zero-length tag list, `loadTags` an empty non-nil
list for a nil and for an empty map, `saveSubnetMappings` a zero-length non-nil list for a
nil and for a zero-length input; none of the three ever returns nil. -/
theorem empty_collections_stay_non_nil :
    saveTags .nil = .mk [] ∧ saveTags (.mk []) = .mk [] ∧
    loadTags .nil = .mk [] ∧ loadTags (.mk []) = .mk [] ∧
    saveSubnetMappings .nil = .mk [] ∧ saveSubnetMappings (.mk []) = .mk [] ∧
    (∀ tags, saveTags tags ≠ .nil) ∧ (∀ m, loadTags m ≠ .nil) ∧
    (∀ sms, saveSubnetMappings sms ≠ .nil) := by
  refine ⟨rfl, rfl, rfl, rfl, rfl, rfl, ?_, ?_, ?_⟩
  · intro tags
    cases tags <;> simp [saveTags]
  · intro m
    cases m <;> simp [loadTags]
  · intro sms
    cases sms <;> simp [saveSubnetMappings]

theorem loadSubnetMappings_saved (l : List firewall.SubnetMapping) :
    (l.map (fun sm => GoMap.mk
        (setEntry (setEntry [] "subnet_id" sm.SubnetId) "az" sm.AvailabilityZone))).mapM
      (fun (_smi : GoMap String) =>
        match _smi.lookup "subnet_id", _smi.lookup "az" with
        | some sid, some az =>
          some ({ SubnetId := sid, AvailabilityZone := az } : firewall.SubnetMapping)
        | _, _ => none) = some l := by
  induction l with
  | nil => rfl
  | cons sm rest ih =>
    rw [List.map_cons, List.mapM_cons, ih]
    simp [setEntry, GoMap.lookup, List.find?]

/-- C17: `loadSubnetMappings` undoes `saveSubnetMappings`: for every list of subnet
mappings the saved value loads, without a panic, to the same elements in the same order
(so with the same length; a non-nil list is returned as it is), and every saved element
carries exactly the keys `subnet_id` and `az`. -/
theorem loadSubnetMappings_saveSubnetMappings (sms : Slice firewall.SubnetMapping) :
    loadSubnetMappings (saveSubnetMappings sms) = some (.mk sms.elems) ∧
    (∀ l, loadSubnetMappings (saveSubnetMappings (.mk l)) = some (.mk l)) ∧
    (saveSubnetMappings sms).elems.length = sms.elems.length ∧
    (∀ m ∈ (saveSubnetMappings sms).elems, m.keys = ["subnet_id", "az"]) := by
  have hl : ∀ l, loadSubnetMappings (saveSubnetMappings (.mk l)) = some (.mk l) := by
    intro l
    simp only [saveSubnetMappings, loadSubnetMappings, loadSubnetMappings_saved]
    rfl
  refine ⟨?_, hl, ?_, ?_⟩
  · cases sms with
    | nil => rfl
    | mk l => exact hl l
  · cases sms <;> simp [saveSubnetMappings, Slice.elems]
  · intro m hm
    cases sms with
    | nil => simp [saveSubnetMappings, Slice.elems] at hm
    | mk l =>
      simp only [saveSubnetMappings, Slice.elems, List.mem_map] at hm
      obtain ⟨sm, _, rfl⟩ := hm
      simp [GoMap.keys, GoMap.entries, setEntry]

/-! ## The two-component codec decodes what was encoded, or fails -/

theorem splitChars_colon_single (s t : List Char)
    (h : strings.splitChars [':'] s 0 = [t]) : s = t := by
  induction s generalizing t with
  | nil =>
    simp [strings.splitChars] at h
    exact h.symm
  | cons c rest ih =>
    rw [splitChars_colon_cons] at h
    by_cases hc : c = ':'
    · rw [if_pos hc] at h
      simp at h
      exact absurd h.2 (splitChars_colon_ne_nil rest)
    · rw [if_neg hc] at h
      cases hsp : strings.splitChars [':'] rest 0 with
      | nil => exact absurd hsp (splitChars_colon_ne_nil rest)
      | cons u us =>
        rw [hsp] at h
        simp at h
        obtain ⟨h1, h2⟩ := h
        subst h2
        rw [ih u hsp, ← h1]

theorem splitChars_colon_pair (s t0 t1 : List Char)
    (h : strings.splitChars [':'] s 0 = [t0, t1]) : s = t0 ++ ':' :: t1 := by
  induction s generalizing t0 with
  | nil => simp [strings.splitChars] at h
  | cons c rest ih =>
    rw [splitChars_colon_cons] at h
    by_cases hc : c = ':'
    · rw [if_pos hc] at h
      simp at h
      obtain ⟨h1, h2⟩ := h
      rw [splitChars_colon_single rest t1 h2, hc, h1]
      rfl
    · rw [if_neg hc] at h
      cases hsp : strings.splitChars [':'] rest 0 with
      | nil => exact absurd hsp (splitChars_colon_ne_nil rest)
      | cons u us =>
        rw [hsp] at h
        simp at h
        obtain ⟨h1, h2⟩ := h
        subst h2
        rw [ih u hsp, ← h1]
        rfl

theorem parseCertificateId_error_iff_count (v : String) :
    (parseCertificateId v).2.2 ≠ none ↔ v.data.count ':' ≠ 1 := by
  have hlen := Split_IdSeparator_length v
  have key : (parseCertificateId v).2.2 ≠ none ↔ (strings.Split v IdSeparator).length ≠ 2 := by
    unfold parseCertificateId
    generalize strings.Split v IdSeparator = tok
    rcases tok with _ | ⟨a, _ | ⟨b, _ | ⟨c, rest⟩⟩⟩ <;> simp
  rw [key, hlen]
  omega

theorem Contains_IdSeparator_eq_true (s : String) :
    strings.Contains s IdSeparator = true ↔ ':' ∈ s.data := by
  have h := Contains_IdSeparator_eq_false s
  cases hc : strings.Contains s IdSeparator
  · simp [h.1 hc]
  · by_contra hcon
    simp only [true_iff] at hcon
    have := h.2 hcon
    rw [hc] at this
    exact Bool.noConfusion this

theorem parseCertificateId_ok_build (v a b : String)
    (h : parseCertificateId v = (a, b, none)) : buildCertificateId a b = v := by
  unfold parseCertificateId at h
  rw [Split_IdSeparator] at h
  cases hsp : strings.splitChars [':'] v.data 0 with
  | nil => exact absurd hsp (splitChars_colon_ne_nil v.data)
  | cons t0 r0 =>
    rw [hsp] at h
    rcases r0 with _ | ⟨t1, _ | ⟨t2, r2⟩⟩
    · simp at h
    · simp at h
      obtain ⟨ha, hb⟩ := h
      have hv := splitChars_colon_pair v.data t0 t1 hsp
      apply String.ext
      rw [buildCertificateId, Join_pair_data, ← ha, ← hb]
      exact hv.symm
    · simp at h

/-- C18: the two-component codec never mis-decodes: for all strings `a` and `b`, parsing
the built id returns exactly `(a, b)` or an error, and the error arises exactly when `a` or
`b` contains the separator; conversely every `v` that parses to `(a, b)` is the id built
from `a` and `b`. The same holds for the custom-URL-category codec. -/
theorem codec_never_misdecodes (a b : String) :
    (parseCertificateId (buildCertificateId a b) = (a, b, none) ∨
      (parseCertificateId (buildCertificateId a b)).2.2 ≠ none) ∧
    ((parseCertificateId (buildCertificateId a b)).2.2 ≠ none ↔
      (strings.Contains a IdSeparator = true ∨ strings.Contains b IdSeparator = true)) ∧
    (∀ v x y, parseCertificateId v = (x, y, none) → buildCertificateId x y = v) ∧
    (parseCustomUrlCategoryId (buildCustomUrlCategoryId a b) = (a, b, none) ∨
      (parseCustomUrlCategoryId (buildCustomUrlCategoryId a b)).2.2 ≠ none) ∧
    ((parseCustomUrlCategoryId (buildCustomUrlCategoryId a b)).2.2 ≠ none ↔
      (strings.Contains a IdSeparator = true ∨ strings.Contains b IdSeparator = true)) ∧
    (∀ v x y, parseCustomUrlCategoryId v = (x, y, none) →
      buildCustomUrlCategoryId x y = v) := by
  have hcount : (buildCertificateId a b).data.count ':' =
      a.data.count ':' + b.data.count ':' + 1 := by
    rw [buildCertificateId, Join_pair_data, List.count_append, List.count_cons_self]
    omega
  have herr : (parseCertificateId (buildCertificateId a b)).2.2 ≠ none ↔
      (strings.Contains a IdSeparator = true ∨ strings.Contains b IdSeparator = true) := by
    rw [parseCertificateId_error_iff_count, hcount, Contains_IdSeparator_eq_true,
      Contains_IdSeparator_eq_true, ← List.count_pos_iff (a := ':'),
      ← List.count_pos_iff (a := ':')]
    omega
  have hexact : parseCertificateId (buildCertificateId a b) = (a, b, none) ∨
      (parseCertificateId (buildCertificateId a b)).2.2 ≠ none := by
    by_cases he : (parseCertificateId (buildCertificateId a b)).2.2 ≠ none
    · exact Or.inr he
    · left
      have hno := mt herr.2 he
      simp only [not_or, Bool.not_eq_true] at hno
      have ha := (Contains_IdSeparator_eq_false a).1 hno.1
      have hb := (Contains_IdSeparator_eq_false b).1 hno.2
      simp only [parseCertificateId, buildCertificateId, Split_Join_pair a b ha hb]
  exact ⟨hexact, herr, fun v x y h => parseCertificateId_ok_build v x y h,
    hexact, herr, fun v x y h => parseCertificateId_ok_build v x y h⟩

theorem codec_never_misdecodes_witness :
    parseCertificateId (buildCertificateId "s1" "c1") = ("s1", "c1", none) ∧
    parseCertificateId (buildCertificateId "a:b" "c") =
      ("", "", some (.errorf "Expecting 2 tokens, got 3")) ∧
    parseCertificateId (buildCertificateId "a" "b:c") =
      ("", "", some (.errorf "Expecting 2 tokens, got 3")) ∧
    buildCertificateId "s1" "c1" = "s1:c1" :=
  ⟨by decide, by decide, by decide,
    (codec_never_misdecodes "s1" "c1").2.2.1 "s1:c1" "s1" "c1" (by decide)⟩

end provider
